import Mathlib

/-!
A verification development for the simple-types-go nullable value types
(`types.String`, `types.Date`, `types.Time`, `types.Timestamp`).

The Go sources are shallowly embedded:
* `GoTime` models `time.Time` as an absolute instant (seconds since
  0001-01-01T00:00:00 UTC plus a nanosecond part) together with a
  fixed-offset location (seconds east of UTC), which covers `time.UTC`
  and every `time.FixedZone` produced by the package.
* the calendar arithmetic (`civilFromDays`, `daysFromCivil`, `daysBefore`,
  `isLeap`, `daysIn`) follows the cycle-splitting structure of Go
  `time.absDate` / `time.daysSinceEpoch`,
* Go strings are modelled as `List Char` (`GoStr`); the byte/character
  distinction is immaterial for the ASCII wire formats of this package,
* the `database/sql/driver` value universe is the inductive `DriverValue`,
* methods that mutate their receiver (`Scan`, `UnmarshalJSON`) are modelled
  by state passing: they take the receiver and return the new receiver
  together with an optional error.
-/

set_option maxHeartbeats 1600000
set_option linter.all false

/-- Cumulative days before each month in a non-leap year (Go `time.daysBefore` table). -/
def daysBefore (m : Int) : Int :=
  if m ≤ 0 then 0
  else if m = 1 then 31
  else if m = 2 then 59
  else if m = 3 then 90
  else if m = 4 then 120
  else if m = 5 then 151
  else if m = 6 then 181
  else if m = 7 then 212
  else if m = 8 then 243
  else if m = 9 then 273
  else if m = 10 then 304
  else if m = 11 then 334
  else 365

/-- Proleptic-Gregorian leap year test (Go `time.isLeap`). -/
def isLeap (y : Int) : Bool :=
  decide (y % 4 = 0 ∧ (y % 100 ≠ 0 ∨ y % 400 = 0))

/-- Converts a day count since 0001-01-01 into (year, month, day), following the
cycle-splitting structure of Go `time.absDate`. -/
def civilFromDays (d0 : Int) : Int × Int × Int :=
  let n400 := d0 / 146097
  let d1 := d0 - 146097 * n400
  let n100 := d1 / 36524
  let n100c := n100 - n100 / 4
  let d2 := d1 - 36524 * n100c
  let n4 := d2 / 1461
  let d3 := d2 - 1461 * n4
  let n1 := d3 / 365
  let n1c := n1 - n1 / 4
  let yday := d3 - 365 * n1c
  let year := 400 * n400 + 100 * n100c + 4 * n4 + n1c + 1
  if isLeap year ∧ yday = 59 then (year, 2, 29)
  else
    let day := if isLeap year ∧ 59 < yday then yday - 1 else yday
    let m0 := day / 31
    let mon := if daysBefore (m0 + 1) ≤ day then m0 + 1 else m0
    (year, mon + 1, day - daysBefore mon + 1)

/-- Converts (year, month, day) into a day count since 0001-01-01, following
Go `time.daysSinceEpoch` plus the month/day offsets added in Go `time.Date`. -/
def daysFromCivil (year month day : Int) : Int :=
  let y := year - 1
  let n400 := y / 400
  let y1 := y - 400 * n400
  let n100 := y1 / 100
  let y2 := y1 - 100 * n100
  let n4 := y2 / 4
  let y3 := y2 - 4 * n4
  let d := 146097 * n400 + 36524 * n100 + 1461 * n4 + 365 * y3
  let d2 := d + daysBefore (month - 1)
  let d3 := if isLeap year ∧ 3 ≤ month then d2 + 1 else d2
  d3 + (day - 1)

/-- Days in the given month of the given year (Go `time.daysIn`). -/
def daysIn (m y : Int) : Int :=
  if m = 2 then (if isLeap y then 29 else 28)
  else if m = 4 ∨ m = 6 ∨ m = 9 ∨ m = 11 then 30
  else 31

theorem daysFromCivil_eval (year month day n400 n100 n4 n1 : Int)
    (h400 : 400 * n400 ≤ year - 1 ∧ year - 1 < 400 * n400 + 400)
    (h100 : 100 * n100 ≤ year - 1 - 400 * n400 ∧ year - 1 - 400 * n400 < 100 * n100 + 100)
    (h4 : 4 * n4 ≤ year - 1 - 400 * n400 - 100 * n100 ∧
          year - 1 - 400 * n400 - 100 * n100 < 4 * n4 + 4)
    (h1 : n1 = year - 1 - 400 * n400 - 100 * n100 - 4 * n4) :
    daysFromCivil year month day =
      146097 * n400 + 36524 * n100 + 1461 * n4 + 365 * n1 + daysBefore (month - 1)
        + (if isLeap year ∧ 3 ≤ month then 1 else 0) + (day - 1) := by
  simp only [daysFromCivil]
  split_ifs <;> omega

theorem daysBefore_facts (k : Int) (y : Int) (h0 : 0 ≤ k) (h1 : k ≤ 11) :
    daysBefore k ≤ 31 * k ∧
    (k ≤ 10 → 31 * k + 30 < daysBefore (k + 2)) ∧
    daysBefore (k + 1) - daysBefore k ≤ daysIn (k + 1) y ∧
    0 ≤ daysBefore k ∧
    daysBefore (k + 1) ≤ 365 ∧
    (k = 11 → daysBefore (k + 1) = 365) ∧
    (2 ≤ k → 59 ≤ daysBefore k) ∧
    (k ≤ 1 → daysBefore (k + 1) ≤ 59) ∧
    daysBefore k < daysBefore (k + 1) := by
  interval_cases k <;> norm_num [daysBefore, daysIn] <;> split_ifs <;> omega

theorem civilFromDays_daysFromCivil (z y m d : Int) (h : civilFromDays z = (y, m, d)) :
    daysFromCivil y m d = z ∧ 1 ≤ m ∧ m ≤ 12 ∧ 1 ≤ d ∧ d ≤ daysIn m y := by
  simp only [civilFromDays] at h
  set n400 := z / 146097 with hn400
  set d1 := z - 146097 * n400 with hd1
  set n100 := d1 / 36524 with hn100
  set n100c := n100 - n100 / 4 with hn100c
  set d2 := d1 - 36524 * n100c with hd2
  set n4 := d2 / 1461 with hn4
  set d3 := d2 - 1461 * n4 with hd3
  set n1 := d3 / 365 with hn1
  set n1c := n1 - n1 / 4 with hn1c
  set yday := d3 - 365 * n1c with hyday
  set year := 400 * n400 + 100 * n100c + 4 * n4 + n1c + 1 with hyear
  clear_value n400 d1 n100 n100c d2 n4 d3 n1 n1c yday year
  have b4 : 0 ≤ n4 ∧ n4 ≤ 24 := by omega
  have bn1c : 0 ≤ n1c ∧ n1c ≤ 3 := by omega
  have bn100c : 0 ≤ n100c ∧ n100c ≤ 3 := by omega
  have byday : 0 ≤ yday ∧ (yday ≤ 364 ∨ (yday = 365 ∧ n1c = 3 ∧ (n4 ≠ 24 ∨ n100c = 3))) := by
    omega
  have hleap : isLeap year = true ↔ (n1c = 3 ∧ (n4 ≠ 24 ∨ n100c = 3)) := by
    simp only [isLeap, decide_eq_true_eq]
    omega
  have hleap' : (isLeap year = true) = (n1c = 3 ∧ (n4 ≠ 24 ∨ n100c = 3)) := propext hleap
  have hzrec : z = 146097 * n400 + 36524 * n100c + 1461 * n4 + 365 * n1c + yday := by omega
  clear hn400 hd1 hn100 hn100c hd2 hn4 hd3 hn1 hn1c hyday
  clear d1 n100 d2 d3 n1
  simp only [hleap'] at h
  set day := if (n1c = 3 ∧ (n4 ≠ 24 ∨ n100c = 3)) ∧ 59 < yday then yday - 1 else yday
    with hday
  clear_value day
  have F : ((n1c = 3 ∧ (n4 ≠ 24 ∨ n100c = 3)) ∧ 59 < yday → day = yday - 1) ∧
      (¬((n1c = 3 ∧ (n4 ≠ 24 ∨ n100c = 3)) ∧ 59 < yday) → day = yday) ∧
      0 ≤ day ∧ day ≤ 364 := by
    split_ifs at hday <;> omega
  set m0 := day / 31 with hm0
  clear_value m0
  have hm0lin : 31 * m0 ≤ day ∧ day < 31 * m0 + 31 := by omega
  clear hm0 hday
  have hm0b : 0 ≤ m0 ∧ m0 ≤ 11 := by omega
  have T0 := daysBefore_facts m0 year hm0b.1 hm0b.2
  split_ifs at h with hfeb hmc
  · -- leap year, yday = 59: February 29
    simp only [Prod.mk.injEq] at h
    obtain ⟨hy, hm, hd⟩ := h
    subst hy; subst hm; subst hd
    have hdfc := daysFromCivil_eval year 2 29 n400 n100c n4 n1c (by omega) (by omega) (by omega)
      (by omega)
    have hdb : daysBefore (2 - 1 : Int) = 31 := by norm_num [daysBefore]
    rw [hdb] at hdfc
    rw [if_neg (by norm_num)] at hdfc
    have hdi : daysIn 2 year = 29 := by
      simp [daysIn, hleap.mpr hfeb.1]
    refine ⟨by omega, by norm_num, by norm_num, by norm_num, by rw [hdi]⟩
  · -- general month computation, mon = m0 + 1
    have hm0le : m0 ≤ 10 := by
      by_contra hcon
      have h11 : m0 = 11 := by omega
      have := T0.2.2.2.2.2.1 h11
      omega
    have Tmon := daysBefore_facts (m0 + 1) year (by omega) (by omega)
    simp only [Prod.mk.injEq] at h
    obtain ⟨hy, hm, hd⟩ := h
    subst hy; subst hm; subst hd
    have hdfc := daysFromCivil_eval year (m0 + 1 + 1) (day - daysBefore (m0 + 1) + 1)
      n400 n100c n4 n1c (by omega) (by omega) (by omega) (by omega)
    have hidx : m0 + 1 + 1 - 1 = m0 + 1 := by ring
    rw [hidx] at hdfc
    simp only [hleap'] at hdfc
    have hidx2 : m0 + 1 + 1 = m0 + 2 := by ring
    rw [hidx2] at hdfc Tmon ⊢
    split_ifs at hdfc <;> omega
  · -- general month computation, mon = m0
    simp only [Prod.mk.injEq] at h
    obtain ⟨hy, hm, hd⟩ := h
    subst hy; subst hm; subst hd
    have hdfc := daysFromCivil_eval year (m0 + 1) (day - daysBefore m0 + 1)
      n400 n100c n4 n1c (by omega) (by omega) (by omega) (by omega)
    have hidx : m0 + 1 - 1 = m0 := by ring
    rw [hidx] at hdfc
    simp only [hleap'] at hdfc
    split_ifs at hdfc <;> omega

/-! ## A model of Go `time.Time` -/

/-- Model of Go `time.Time`: `sec`/`nsec` give the absolute instant (seconds since
0001-01-01T00:00:00 UTC, with `0 ≤ nsec < 10^9` the sub-second part), and `offset`
is the fixed-offset location in seconds east of UTC (`0` models `time.UTC`).
Equality of two `GoTime`s models Go `==` on `time.Time` (same instant and same
location). -/
structure GoTime where
  sec : Int
  nsec : Int
  offset : Int
deriving DecidableEq

/-- The zero `time.Time{}`: 0001-01-01T00:00:00 UTC. -/
def zeroTime : GoTime := ⟨0, 0, 0⟩

/-- Go `t.UTC()`: same instant, location set to UTC. -/
def GoTime.utc (t : GoTime) : GoTime := { t with offset := 0 }

/-- Go `t.Truncate(time.Second)`: drops the sub-second part (for `0 ≤ nsec < 10^9`). -/
def GoTime.truncateSecond (t : GoTime) : GoTime := { t with nsec := 0 }

/-- Go `t.Truncate(24 * time.Hour)`: rounds the absolute time down to a multiple of
24h since the zero time (a UTC day boundary), keeping the location. -/
def GoTime.truncateDay (t : GoTime) : GoTime :=
  { t with sec := t.sec - t.sec % 86400, nsec := 0 }

/-- Local wall-clock seconds (Go's `t.abs()` shifted to our epoch). -/
def GoTime.localSec (t : GoTime) : Int := t.sec + t.offset

/-- The local calendar day number since 0001-01-01. -/
def GoTime.days (t : GoTime) : Int := t.localSec / 86400

/-- Seconds elapsed in the local day. -/
def GoTime.clockSec (t : GoTime) : Int := t.localSec % 86400

/-- Go `t.Hour()`. -/
def GoTime.hour (t : GoTime) : Int := t.clockSec / 3600

/-- Go `t.Minute()`. -/
def GoTime.minute (t : GoTime) : Int := t.clockSec / 60 % 60

/-- Go `t.Second()`. -/
def GoTime.second (t : GoTime) : Int := t.clockSec % 60

/-- Go `t.Nanosecond()`. -/
def GoTime.nanosecond (t : GoTime) : Int := t.nsec

/-- Go `t.Year()`. -/
def GoTime.year (t : GoTime) : Int := (civilFromDays t.days).1

/-- Go `t.Month()`. -/
def GoTime.month (t : GoTime) : Int := (civilFromDays t.days).2.1

/-- Go `t.Day()`. -/
def GoTime.day (t : GoTime) : Int := (civilFromDays t.days).2.2

/-- Go `t.IsZero()`: reports whether `t` is the zero instant
0001-01-01T00:00:00 UTC (the location does not participate). -/
def GoTime.isZero (t : GoTime) : Bool := decide (t.sec = 0 ∧ t.nsec = 0)

/-- Go `time.Date(year, month, day, hour, min, sec, nsec, loc)` for a fixed-offset
`loc`: normalizes `nsec` into `sec`, `sec` into `min`, `min` into `hour`, `hour`
into `day` and `month` into `year` exactly as Go's `norm` does, then interprets the
wall-clock fields in the given location. -/
def goDate (year month day hour min sec nsec offset : Int) : GoTime :=
  let sec2 := sec + nsec / 1000000000
  let nsec2 := nsec % 1000000000
  let min2 := min + sec2 / 60
  let sec3 := sec2 % 60
  let hour2 := hour + min2 / 60
  let min3 := min2 % 60
  let day2 := day + hour2 / 24
  let hour3 := hour2 % 24
  let year2 := year + (month - 1) / 12
  let month2 := (month - 1) % 12 + 1
  let d := daysFromCivil year2 month2 day2
  ⟨d * 86400 + hour3 * 3600 + min3 * 60 + sec3 - offset, nsec2, offset⟩

/-! ## Go strings, digits, and the layout-driven text formats -/

/-- Go strings; the package only ever formats and parses ASCII, where Go's
byte indexing and character indexing agree. -/
abbrev GoStr := List Char

/-- Embeds a Lean string literal as a `GoStr`. -/
def gs (s : String) : GoStr := s.data

/-- The byte `'0' + n` that Go's `appendInt` emits for a digit. -/
def digitChar (n : Nat) : Char := Char.ofNat (48 + n)

/-- Decimal digits of `n`, most significant first (fuel-driven so that it
reduces by kernel computation). -/
def natDigitsAux : Nat → Nat → List Char
  | 0, _ => []
  | fuel + 1, n => if n < 10 then [digitChar n] else natDigitsAux fuel (n / 10) ++ [digitChar (n % 10)]

/-- Decimal digits of `n`, most significant first. -/
def natDigits (n : Nat) : List Char := natDigitsAux (n + 1) n

/-- Go `appendInt` zero-padding for a nonnegative value: pads `natDigits n` with
leading zeros up to width `w` (emitting more than `w` digits when `n` needs them). -/
def padNat (w n : Nat) : GoStr := List.replicate (w - (natDigits n).length) '0' ++ natDigits n

/-- Go `appendInt(x, w)`: sign, then the zero-padded magnitude. -/
def fmtInt (w : Nat) (x : Int) : GoStr :=
  if x < 0 then '-' :: padNat w x.natAbs else padNat w x.toNat

/-- Go `isDigit`. -/
def isDigitChar (c : Char) : Bool := decide (48 ≤ c.toNat ∧ c.toNat ≤ 57)

/-- The numeric value of a digit character. -/
def digitVal (c : Char) : Nat := c.toNat - 48

/-- The value of a digit string, as Go `atoi`/`parseUint` compute it. -/
def digitsVal (l : GoStr) : Nat := l.foldl (fun a c => a * 10 + digitVal c) 0

theorem digitVal_digitChar (n : Nat) (h : n < 10) :
    digitVal (digitChar n) = n ∧ isDigitChar (digitChar n) = true := by
  interval_cases n <;> decide

theorem digitsVal_append_digit (l : GoStr) (c : Char) :
    digitsVal (l ++ [c]) = digitsVal l * 10 + digitVal c := by
  simp [digitsVal, List.foldl_append]

theorem natDigitsAux_spec (fuel n : Nat) (h : n < fuel) :
    (∀ c ∈ natDigitsAux fuel n, isDigitChar c = true) ∧
    digitsVal (natDigitsAux fuel n) = n ∧
    1 ≤ (natDigitsAux fuel n).length := by
  induction fuel generalizing n with
  | zero => omega
  | succ fuel ih =>
    rw [natDigitsAux]
    split_ifs with hlt
    · refine ⟨?_, ?_, by simp⟩
      · intro c hc
        simp at hc
        subst hc
        exact (digitVal_digitChar n hlt).2
      · simp [digitsVal, (digitVal_digitChar n hlt).1]
    · have hdiv : n / 10 < fuel := by omega
      obtain ⟨ha, hv, hl⟩ := ih (n / 10) hdiv
      refine ⟨?_, ?_, by simp⟩
      · intro c hc
        simp at hc
        rcases hc with hc | hc
        · exact ha c hc
        · subst hc
          exact (digitVal_digitChar (n % 10) (by omega)).2
      · rw [digitsVal_append_digit, hv, (digitVal_digitChar (n % 10) (by omega)).1]
        omega

theorem natDigitsAux_len (fuel n w : Nat) (h : n < fuel) (hw : 1 ≤ w) (hn : n < 10 ^ w) :
    (natDigitsAux fuel n).length ≤ w := by
  induction fuel generalizing n w with
  | zero => omega
  | succ fuel ih =>
    rw [natDigitsAux]
    split_ifs with hlt
    · simpa using hw
    · obtain ⟨w', rfl⟩ : ∃ w', w = w' + 1 := ⟨w - 1, by omega⟩
      have h10 : (10 : Nat) ^ (w' + 1) = 10 ^ w' * 10 := pow_succ 10 w'
      have hw' : 1 ≤ w' := by
        by_contra hc
        have : w' = 0 := by omega
        subst this
        simp at h10
        omega
      have hdivw : n / 10 < 10 ^ w' := by
        rw [Nat.div_lt_iff_lt_mul (by norm_num)]
        omega
      have := ih (n / 10) w' (by omega) hw' hdivw
      simp only [List.length_append, List.length_cons, List.length_nil]
      omega

theorem digitsVal_replicate_zero (k : Nat) (l : GoStr) :
    digitsVal (List.replicate k '0' ++ l) = digitsVal l := by
  induction k with
  | zero => simp
  | succ k ih =>
    rw [List.replicate_succ, List.cons_append]
    simpa [digitsVal] using ih

theorem padNat_spec (w n : Nat) (hw : 1 ≤ w) (hn : n < 10 ^ w) :
    (padNat w n).length = w ∧ (∀ c ∈ padNat w n, isDigitChar c = true) ∧
    digitsVal (padNat w n) = n := by
  obtain ⟨ha, hv, hl⟩ := natDigitsAux_spec (n + 1) n (by omega)
  have hlen := natDigitsAux_len (n + 1) n w (by omega) hw hn
  unfold padNat natDigits
  refine ⟨?_, ?_, ?_⟩
  · simp only [List.length_append, List.length_replicate]
    omega
  · intro c hc
    simp only [List.mem_append, List.mem_replicate] at hc
    rcases hc with hc | hc
    · rw [hc.2]; decide
    · exact ha c hc
  · rw [digitsVal_replicate_zero]
    exact hv

theorem list_two_of_len (l : GoStr) (h : l.length = 2) : ∃ a b, l = [a, b] := by
  match l, h with
  | [a, b], _ => exact ⟨a, b, rfl⟩

theorem list_four_of_len (l : GoStr) (h : l.length = 4) : ∃ a b c d, l = [a, b, c, d] := by
  match l, h with
  | [a, b, c, d], _ => exact ⟨a, b, c, d, rfl⟩

/-- Go `time.Parse` with layout `"2006-01-02"`: a 4-digit year, `'-'`, a fixed
2-digit month, `'-'`, a fixed 2-digit day, nothing else; then `Parse`'s range
checks (month in 1..12, day in 1..`daysIn`). Returns the components, parsed in
UTC at midnight by the caller. -/
def goParseDate (s : GoStr) : Option (Int × Int × Int) :=
  match s with
  | [y1, y2, y3, y4, s1, m1, m2, s2, d1, d2] =>
    if isDigitChar y1 ∧ isDigitChar y2 ∧ isDigitChar y3 ∧ isDigitChar y4 ∧ s1 = '-' ∧
        isDigitChar m1 ∧ isDigitChar m2 ∧ s2 = '-' ∧ isDigitChar d1 ∧ isDigitChar d2 then
      let y : Int := Int.ofNat (digitsVal [y1, y2, y3, y4])
      let mo : Int := Int.ofNat (digitsVal [m1, m2])
      let da : Int := Int.ofNat (digitsVal [d1, d2])
      if 1 ≤ mo ∧ mo ≤ 12 ∧ 1 ≤ da ∧ da ≤ daysIn mo y then some (y, mo, da) else none
    else none
  | _ => none

/-- Go `time.Parse` with layout `"15:04"`: a 1- or 2-digit hour (Go `getnum`
takes two digits exactly when the first two characters are both digits), `':'`,
a fixed 2-digit minute, nothing else; then the range checks hour < 24,
minute < 60. -/
def goParseHM (s : GoStr) : Option (Int × Int) :=
  match s with
  | [h1, c, m1, m2] =>
    if c = ':' ∧ isDigitChar h1 ∧ isDigitChar m1 ∧ isDigitChar m2 then
      let h : Int := Int.ofNat (digitVal h1)
      let mi : Int := Int.ofNat (digitsVal [m1, m2])
      if h < 24 ∧ mi < 60 then some (h, mi) else none
    else none
  | [h1, h2, c, m1, m2] =>
    if c = ':' ∧ isDigitChar h1 ∧ isDigitChar h2 ∧ isDigitChar m1 ∧ isDigitChar m2 then
      let h : Int := Int.ofNat (digitsVal [h1, h2])
      let mi : Int := Int.ofNat (digitsVal [m1, m2])
      if h < 24 ∧ mi < 60 then some (h, mi) else none
    else none
  | _ => none

/-- The fractional-second part of Go `parseRFC3339`: consumes `'.'` followed by
at least one digit, takes the whole digit run, and converts the first nine
digits (scaled up when fewer are given) into nanoseconds, as Go
`parseNanoseconds` does. Returns the nanoseconds and the unconsumed suffix. -/
def splitFrac (s : GoStr) : Int × GoStr :=
  match s with
  | '.' :: c :: rest =>
    if isDigitChar c then
      let ds := c :: rest.takeWhile isDigitChar
      let keep := ds.take 9
      (Int.ofNat (digitsVal keep * 10 ^ (9 - keep.length)), rest.dropWhile isDigitChar)
    else (0, s)
  | _ => (0, s)

/-- The time-zone suffix of Go `parseRFC3339`: exactly `"Z"`, or exactly
`±hh:mm` with hh ≤ 23, mm ≤ 59; the zone offset in seconds is returned. -/
def parseZone (s : GoStr) : Option Int :=
  match s with
  | ['Z'] => some 0
  | [sg, z1, z2, ':', z3, z4] =>
    if (sg = '+' ∨ sg = '-') ∧ isDigitChar z1 ∧ isDigitChar z2 ∧ isDigitChar z3 ∧
        isDigitChar z4 then
      let zh := Int.ofNat (digitsVal [z1, z2])
      let zm := Int.ofNat (digitsVal [z3, z4])
      if zh ≤ 23 ∧ zm ≤ 59 then
        some (if sg = '-' then -((zh * 60 + zm) * 60) else (zh * 60 + zm) * 60)
      else none
    else none
  | _ => none

/-- Go `parseRFC3339` (the strict fast path Go uses for the `time.RFC3339`
layout): `YYYY-MM-DDThh:mm:ss`, an optional fraction, then `Z` or `±hh:mm`;
the year has exactly four digits (hence 0 ≤ year ≤ 9999), months/days/clock
fields are range-checked, and the result carries the parsed fixed-offset zone. -/
def goParseRFC3339 (s : GoStr) : Option GoTime :=
  match s with
  | y1 :: y2 :: y3 :: y4 :: s1 :: m1 :: m2 :: s2 :: d1 :: d2 :: tc :: h1 :: h2 :: c1 ::
      n1 :: n2 :: c2 :: e1 :: e2 :: rest =>
    if isDigitChar y1 ∧ isDigitChar y2 ∧ isDigitChar y3 ∧ isDigitChar y4 ∧
        isDigitChar m1 ∧ isDigitChar m2 ∧ isDigitChar d1 ∧ isDigitChar d2 ∧
        isDigitChar h1 ∧ isDigitChar h2 ∧ isDigitChar n1 ∧ isDigitChar n2 ∧
        isDigitChar e1 ∧ isDigitChar e2 ∧
        s1 = '-' ∧ s2 = '-' ∧ tc = 'T' ∧ c1 = ':' ∧ c2 = ':' then
      let y : Int := Int.ofNat (digitsVal [y1, y2, y3, y4])
      let mo : Int := Int.ofNat (digitsVal [m1, m2])
      let da : Int := Int.ofNat (digitsVal [d1, d2])
      let hh : Int := Int.ofNat (digitsVal [h1, h2])
      let mi : Int := Int.ofNat (digitsVal [n1, n2])
      let ss : Int := Int.ofNat (digitsVal [e1, e2])
      if 1 ≤ mo ∧ mo ≤ 12 ∧ 1 ≤ da ∧ da ≤ daysIn mo y ∧ hh ≤ 23 ∧ mi ≤ 59 ∧ ss ≤ 59 then
        let fr := splitFrac rest
        match parseZone fr.2 with
        | some zo =>
          some ⟨daysFromCivil y mo da * 86400 + hh * 3600 + mi * 60 + ss - zo, fr.1, zo⟩
        | none => none
      else none
    else none
  | _ => none

/-- Go `t.Format("2006-01-02")`: the local calendar date, 4-digit year. -/
def fmtDate (t : GoTime) : GoStr :=
  fmtInt 4 t.year ++ '-' :: fmtInt 2 t.month ++ '-' :: fmtInt 2 t.day

/-- Go `t.Format("15:04")`: the local wall clock, zero-padded 24-hour `HH:MM`. -/
def fmtHM (t : GoTime) : GoStr :=
  fmtInt 2 t.hour ++ ':' :: fmtInt 2 t.minute

/-- The `"Z07:00"` zone suffix of Go `t.Format(time.RFC3339)`: `Z` for UTC,
otherwise `±hh:mm` of the offset rounded toward zero to whole minutes. -/
def fmtZone (offset : Int) : GoStr :=
  if offset = 0 then ['Z']
  else
    let zoneMin := if 0 ≤ offset then offset / 60 else -((-offset) / 60)
    let u := if zoneMin < 0 then -zoneMin else zoneMin
    (if zoneMin < 0 then '-' else '+') :: fmtInt 2 (u / 60) ++ ':' :: fmtInt 2 (u % 60)

/-- Go `t.Format(time.RFC3339)`: `YYYY-MM-DDThh:mm:ss` of the local wall clock
followed by the zone suffix. -/
def fmtRFC3339 (t : GoTime) : GoStr :=
  fmtDate t ++ 'T' :: fmtInt 2 t.hour ++ ':' :: fmtInt 2 t.minute ++ ':' ::
    fmtInt 2 t.second ++ fmtZone t.offset

/-! ## The JSON string codec of Go `encoding/json` -/

theorem char_eq_of_toNat_eq (c d : Char) (h : c.toNat = d.toNat) : c = d := by
  have := congrArg Char.ofNat h
  rwa [Char.ofNat_toNat, Char.ofNat_toNat] at this

/-- Characters Go `encoding/json` emits unescaped inside a string literal
(with the default `escapeHTML = true`): at least 0x20, not `"` (34), not `\`
(92), not the HTML characters `<` `>` `&` (60, 62, 38), and not U+2028/U+2029. -/
def jsonSafe (c : Char) : Bool :=
  decide (32 ≤ c.toNat ∧ c.toNat ≠ 34 ∧ c.toNat ≠ 92 ∧ c.toNat ≠ 60 ∧ c.toNat ≠ 62 ∧
    c.toNat ≠ 38 ∧ c.toNat ≠ 8232 ∧ c.toNat ≠ 8233)

/-- A lowercase hexadecimal digit, as Go's `hex` table yields. -/
def toHexChar (n : Nat) : Char := if n < 10 then digitChar n else Char.ofNat (87 + n)

/-- Four lowercase hex digits of a code point below 0x10000. -/
def hex4 (n : Nat) : GoStr :=
  [toHexChar (n / 4096 % 16), toHexChar (n / 256 % 16), toHexChar (n / 16 % 16),
    toHexChar (n % 16)]

/-- Escapes one character the way Go `encoding/json` string encoding does. -/
def escapeChar (c : Char) : GoStr :=
  if jsonSafe c then [c]
  else if c = '"' then ['\\', '"']
  else if c = '\\' then ['\\', '\\']
  else if c = '\n' then ['\\', 'n']
  else if c = '\r' then ['\\', 'r']
  else if c = '\t' then ['\\', 't']
  else '\\' :: 'u' :: hex4 c.toNat

/-- Go `json.Marshal` of a string value: a quoted literal with every character
escaped as `encoding/json` escapes it. -/
def jsonMarshalString (s : GoStr) : GoStr := '"' :: (s.map escapeChar).flatten ++ ['"']

/-- The value of one hex digit, upper or lower case (Go `getu4`). -/
def fromHexChar (c : Char) : Option Nat :=
  if 48 ≤ c.toNat ∧ c.toNat ≤ 57 then some (c.toNat - 48)
  else if 97 ≤ c.toNat ∧ c.toNat ≤ 102 then some (c.toNat - 87)
  else if 65 ≤ c.toNat ∧ c.toNat ≤ 70 then some (c.toNat - 55)
  else none

/-- The value of a 4-hex-digit escape. -/
def hex4val (a b c d : Char) : Option Nat :=
  match fromHexChar a, fromHexChar b, fromHexChar c, fromHexChar d with
  | some x, some y, some z, some w => some (((x * 16 + y) * 16 + z) * 16 + w)
  | _, _, _, _ => none

/-- Decodes the interior of a JSON string literal as Go `unquoteBytes`/`unquote`
do: raw control bytes and unescaped quotes are rejected, the standard escapes
(including Go's nonstandard `\\'`) and `\\uXXXX` (with UTF-16 surrogate pairs,
lone surrogates becoming U+FFFD and the following escape reprocessed) are
decoded, everything else is passed through. Fuel-driven (any fuel above the
input length gives Go's behaviour) so that it reduces by kernel computation. -/
def unescapeAux : Nat → GoStr → Option GoStr
  | 0, _ => none
  | _ + 1, [] => some []
  | fuel + 1, c :: rest =>
    if c = '\\' then
      match rest with
      | [] => none
      | e :: r =>
        if e = '"' then ('"' :: ·) <$> unescapeAux fuel r
        else if e = '\\' then ('\\' :: ·) <$> unescapeAux fuel r
        else if e = '/' then ('/' :: ·) <$> unescapeAux fuel r
        else if e = '\'' then ('\'' :: ·) <$> unescapeAux fuel r
        else if e = 'b' then (Char.ofNat 8 :: ·) <$> unescapeAux fuel r
        else if e = 'f' then (Char.ofNat 12 :: ·) <$> unescapeAux fuel r
        else if e = 'n' then ('\n' :: ·) <$> unescapeAux fuel r
        else if e = 'r' then ('\r' :: ·) <$> unescapeAux fuel r
        else if e = 't' then ('\t' :: ·) <$> unescapeAux fuel r
        else if e = 'u' then
          match r with
          | a :: b :: c' :: d :: r2 =>
            match hex4val a b c' d with
            | none => none
            | some n =>
              if 55296 ≤ n ∧ n < 56320 then
                match r2 with
                | e2 :: u2 :: a2 :: b2 :: c2 :: d2 :: r3 =>
                  if e2 = '\\' ∧ u2 = 'u' then
                    match hex4val a2 b2 c2 d2 with
                    | none => (Char.ofNat 65533 :: ·) <$> unescapeAux fuel r2
                    | some n2 =>
                      if 56320 ≤ n2 ∧ n2 < 57344 then
                        (Char.ofNat (65536 + (n - 55296) * 1024 + (n2 - 56320)) :: ·) <$>
                          unescapeAux fuel r3
                      else (Char.ofNat 65533 :: ·) <$> unescapeAux fuel r2
                  else (Char.ofNat 65533 :: ·) <$> unescapeAux fuel r2
                | _ => (Char.ofNat 65533 :: ·) <$> unescapeAux fuel r2
              else if 56320 ≤ n ∧ n < 57344 then
                (Char.ofNat 65533 :: ·) <$> unescapeAux fuel r2
              else (Char.ofNat n :: ·) <$> unescapeAux fuel r2
          | _ => none
        else none
    else if c = '"' then none
    else if c.toNat < 32 then none
    else (c :: ·) <$> unescapeAux fuel rest

/-- Decodes the interior of a JSON string literal (see `unescapeAux`). -/
def unescapeChars (s : GoStr) : Option GoStr := unescapeAux (s.length + 1) s

/-- JSON whitespace, as Go's scanner skips around a top-level value. -/
def isJSONSpace (c : Char) : Bool := decide (c = ' ' ∨ c = '\t' ∨ c = '\n' ∨ c = '\r')

/-- Go `json.Unmarshal` into a `string`: after trimming surrounding whitespace
the payload must be a double-quoted literal whose interior decodes; anything
else is an unmarshalling error. -/
def jsonUnmarshalString (data : GoStr) : Option GoStr :=
  let t := (((data.dropWhile isJSONSpace).reverse.dropWhile isJSONSpace).reverse : GoStr)
  match t with
  | '"' :: rest =>
    if rest = [] then none
    else if rest.getLast? = some '"' then unescapeChars rest.dropLast else none
  | _ => none

/-! ## The driver value universe and the error model -/

/-- The values `database/sql/driver` may hand to `Scan` (Go `driver.Value`):
`nil`, `int64`, `float64`, `bool`, `[]byte`, `string`, `time.Time`. The
`float64` payload is omitted: none of the scanners inspects it. -/
inductive DriverValue where
  | null
  | int64 (n : Int)
  | float64
  | bool (b : Bool)
  | bytes (s : GoStr)
  | str (s : GoStr)
  | time (t : GoTime)
deriving DecidableEq

/-- The name `fmt`'s `%T` verb prints for each driver value kind. -/
def kindName : DriverValue → String
  | .null => "<nil>"
  | .int64 _ => "int64"
  | .float64 => "float64"
  | .bool _ => "bool"
  | .bytes _ => "[]uint8"
  | .str _ => "string"
  | .time _ => "time.Time"

/-- The errors the package returns.
`unsupportedType target kind` models `fmt.Errorf("cannot scan %T into <target>", value)`;
`invalidFormat target expected` models the `fmt.Errorf("invalid ... format, expected
<expected>: %w", err)` wrappers around `time.Parse` errors;
`malformedDocument target` models `fmt.Errorf("invalid string format: %w", err)`
around a `json.Unmarshal` failure. -/
inductive GoErr where
  | unsupportedType (target kind : String)
  | invalidFormat (target expected : String)
  | malformedDocument (target : String)
deriving DecidableEq

/-! ## The four nullable types (package `types`) -/

/-- Go `types.String`. -/
structure types.String where
  Val : GoStr
  Valid : Bool
deriving DecidableEq

/-- Go `types.NewString`. -/
def types.NewString (s : GoStr) : types.String := ⟨s, true⟩

/-- Go `(*String).Scan`. -/
def types.String.Scan (s : types.String) (value : DriverValue) :
    types.String × Option GoErr :=
  match value with
  | .null => (⟨[], false⟩, none)
  | .str v => (⟨v, true⟩, none)
  | .bytes v => (⟨v, true⟩, none)
  | _ => (s, some (.unsupportedType ("String") (kindName value)))

/-- Go `String.Value` (the error result is always nil in the source). -/
def types.String.Value (s : types.String) : DriverValue :=
  if s.Valid then .str s.Val else .null

/-- Go `String.MarshalJSON` (the error result is always nil in the source). -/
def types.String.MarshalJSON (s : types.String) : GoStr :=
  if s.Valid then jsonMarshalString s.Val else gs ("null")

/-- Go `(*String).UnmarshalJSON`. -/
def types.String.UnmarshalJSON (s : types.String) (data : GoStr) :
    types.String × Option GoErr :=
  if data = gs ("null") then (⟨[], false⟩, none)
  else
    match jsonUnmarshalString data with
    | some str => (⟨str, true⟩, none)
    | none => (s, some (.malformedDocument ("String")))

/-- Go `String.IsZero`. -/
def types.String.IsZero (s : types.String) : Bool := !s.Valid || decide (s.Val = [])

/-- Go `types.Date`. -/
structure types.Date where
  Time : GoTime
  Valid : Bool
deriving DecidableEq

/-- Go `types.NewDate`: truncates with `t.Truncate(24 * time.Hour)`. -/
def types.NewDate (t : GoTime) : types.Date := ⟨t.truncateDay, true⟩

/-- Go `(*Date).parseDateString`: empty input resets to invalid; otherwise
`time.Parse("2006-01-02", s)` (which yields midnight UTC of the parsed day),
errors wrapped as `invalidFormat`. -/
def types.Date.parseDateString (d : types.Date) (s : GoStr) : types.Date × Option GoErr :=
  if s = [] then (⟨zeroTime, false⟩, none)
  else
    match goParseDate s with
    | some (y, mo, da) => (⟨⟨daysFromCivil y mo da * 86400, 0, 0⟩, true⟩, none)
    | none => (d, some (.invalidFormat ("Date") ("YYYY-MM-DD")))

/-- Go `(*Date).Scan`. -/
def types.Date.Scan (d : types.Date) (value : DriverValue) : types.Date × Option GoErr :=
  match value with
  | .null => (⟨zeroTime, false⟩, none)
  | .time v => (⟨v.truncateDay, true⟩, none)
  | .bytes b => d.parseDateString b
  | .str s => d.parseDateString s
  | _ => (d, some (.unsupportedType ("Date") (kindName value)))

/-- Go `Date.Value` (the error result is always nil in the source). -/
def types.Date.Value (d : types.Date) : DriverValue :=
  if d.Valid then .str (fmtDate d.Time) else .null

/-- Go `Date.MarshalJSON` (the error result is always nil in the source). -/
def types.Date.MarshalJSON (d : types.Date) : GoStr :=
  if d.Valid then '"' :: fmtDate d.Time ++ ['"'] else gs ("null")

/-- Go `(*Date).UnmarshalJSON`. -/
def types.Date.UnmarshalJSON (d : types.Date) (data : GoStr) : types.Date × Option GoErr :=
  if data = gs ("null") ∨ data = ['"', '"'] then (⟨zeroTime, false⟩, none)
  else
    let str := if 2 ≤ data.length ∧ data.head? = some '"' ∧ data.getLast? = some '"'
      then (data.drop 1).dropLast else data
    d.parseDateString str

/-- Go `Date.IsZero`. -/
def types.Date.IsZero (d : types.Date) : Bool := !d.Valid || d.Time.isZero

/-- Go `types.Time` (time of day, minute precision). -/
structure types.Time where
  Time : GoTime
  Valid : Bool
deriving DecidableEq

/-- Go `types.NewTime`: keeps only the clock's hour and minute, anchored to
0001-01-01 UTC. -/
def types.NewTime (t : GoTime) : types.Time :=
  ⟨goDate 1 1 1 t.hour t.minute 0 0 0, true⟩

/-- Go `(*Time).parseTimeString`: empty resets to invalid; longer than five
characters is cut to the first five; then `time.Parse("15:04", s)`, errors
wrapped as `invalidFormat`; the result keeps only hour and minute. -/
def types.Time.parseTimeString (t : types.Time) (s : GoStr) : types.Time × Option GoErr :=
  if s = [] then (⟨zeroTime, false⟩, none)
  else
    let s2 := if 5 < s.length then s.take 5 else s
    match goParseHM s2 with
    | some (h, mi) => (⟨goDate 1 1 1 h mi 0 0 0, true⟩, none)
    | none => (t, some (.invalidFormat ("Time") ("HH:MM")))

/-- Go `(*Time).Scan`. -/
def types.Time.Scan (t : types.Time) (value : DriverValue) : types.Time × Option GoErr :=
  match value with
  | .null => (⟨zeroTime, false⟩, none)
  | .time v => (⟨goDate 1 1 1 v.hour v.minute 0 0 0, true⟩, none)
  | .bytes b => t.parseTimeString b
  | .str s => t.parseTimeString s
  | _ => (t, some (.unsupportedType ("Time") (kindName value)))

/-- Go `Time.Value` (the error result is always nil in the source). -/
def types.Time.Value (t : types.Time) : DriverValue :=
  if t.Valid then .str (fmtHM t.Time) else .null

/-- Go `Time.MarshalJSON` (the error result is always nil in the source). -/
def types.Time.MarshalJSON (t : types.Time) : GoStr :=
  if t.Valid then '"' :: fmtHM t.Time ++ ['"'] else gs ("null")

/-- Go `(*Time).UnmarshalJSON`. -/
def types.Time.UnmarshalJSON (t : types.Time) (data : GoStr) : types.Time × Option GoErr :=
  if data = gs ("null") ∨ data = ['"', '"'] then (⟨zeroTime, false⟩, none)
  else
    let str := if 2 ≤ data.length ∧ data.head? = some '"' ∧ data.getLast? = some '"'
      then (data.drop 1).dropLast else data
    t.parseTimeString str

/-- Go `Time.IsZero`. -/
def types.Time.IsZero (t : types.Time) : Bool := !t.Valid || t.Time.isZero

/-- Go `types.Timestamp`. -/
structure types.Timestamp where
  Time : GoTime
  Valid : Bool
deriving DecidableEq

/-- Go `types.NewTimestamp`: `t.UTC().Truncate(time.Second)`. -/
def types.NewTimestamp (t : GoTime) : types.Timestamp := ⟨t.utc.truncateSecond, true⟩

/-- Go `types.CombineDateAndTime`: `time.Date` of the date's local
year/month/day with the time's local clock and nanosecond, in the date's
location; always valid. -/
def types.CombineDateAndTime (d : types.Date) (t : types.Time) : types.Timestamp :=
  ⟨goDate d.Time.year d.Time.month d.Time.day t.Time.hour t.Time.minute t.Time.second
    t.Time.nanosecond d.Time.offset, true⟩

/-- Go `(*Timestamp).parseTimestampString`: empty resets to invalid; otherwise
`time.Parse(time.RFC3339, s)` then `.UTC().Truncate(time.Second)`, errors
wrapped as `invalidFormat`. -/
def types.Timestamp.parseTimestampString (t : types.Timestamp) (s : GoStr) :
    types.Timestamp × Option GoErr :=
  if s = [] then (⟨zeroTime, false⟩, none)
  else
    match goParseRFC3339 s with
    | some parsed => (⟨parsed.utc.truncateSecond, true⟩, none)
    | none => (t, some (.invalidFormat ("Timestamp") ("RFC3339")))

/-- Go `(*Timestamp).Scan`. -/
def types.Timestamp.Scan (t : types.Timestamp) (value : DriverValue) :
    types.Timestamp × Option GoErr :=
  match value with
  | .null => (⟨zeroTime, false⟩, none)
  | .time v => (⟨v.utc.truncateSecond, true⟩, none)
  | .bytes b => t.parseTimestampString b
  | .str s => t.parseTimestampString s
  | _ => (t, some (.unsupportedType ("Timestamp") (kindName value)))

/-- Go `Timestamp.Value`: hands the driver a native instant,
`t.Time.UTC().Truncate(time.Second)` (the error result is always nil). -/
def types.Timestamp.Value (t : types.Timestamp) : DriverValue :=
  if t.Valid then .time (t.Time.utc.truncateSecond) else .null

/-- Go `Timestamp.MarshalJSON`:
`json.Marshal(t.Time.UTC().Truncate(time.Second).Format(time.RFC3339))`. -/
def types.Timestamp.MarshalJSON (t : types.Timestamp) : GoStr :=
  if t.Valid then jsonMarshalString (fmtRFC3339 (t.Time.utc.truncateSecond))
  else gs ("null")

/-- Go `(*Timestamp).UnmarshalJSON`. -/
def types.Timestamp.UnmarshalJSON (t : types.Timestamp) (data : GoStr) :
    types.Timestamp × Option GoErr :=
  if data = gs ("null") ∨ data = ['"', '"'] then (⟨zeroTime, false⟩, none)
  else
    let str := if 2 ≤ data.length ∧ data.head? = some '"' ∧ data.getLast? = some '"'
      then (data.drop 1).dropLast else data
    t.parseTimestampString str

/-! ## Evaluation lemmas for `goDate` and the canonical forms -/

/-- A `Timestamp`'s canonical storage form: UTC, truncated to whole seconds. -/
def tsCanonical (t : GoTime) : Prop := t.offset = 0 ∧ t.nsec = 0

/-- A `Date`'s canonical storage form: a UTC midnight. -/
def dateCanonical (t : GoTime) : Prop := t.offset = 0 ∧ t.nsec = 0 ∧ t.sec % 86400 = 0

/-- A `Time`'s canonical storage form: hour and minute on the reference day
0001-01-01 UTC. -/
def todCanonical (t : GoTime) : Prop :=
  t.offset = 0 ∧ t.nsec = 0 ∧ 0 ≤ t.sec ∧ t.sec < 86400 ∧ t.sec % 60 = 0

/-- The years whose 4-digit wire format parses back. -/
def yearRepresentable (t : GoTime) : Prop := 0 ≤ t.year ∧ t.year ≤ 9999

theorem goDate_eval (year month day hour min sec nsec offset : Int)
    (hns : 0 ≤ nsec ∧ nsec < 1000000000) (hs : 0 ≤ sec ∧ sec < 60)
    (hmin : 0 ≤ min ∧ min < 60) (hh : 0 ≤ hour ∧ hour < 24)
    (hmo : 1 ≤ month ∧ month ≤ 12) :
    goDate year month day hour min sec nsec offset =
      ⟨daysFromCivil year month day * 86400 + hour * 3600 + min * 60 + sec - offset,
        nsec, offset⟩ := by
  simp only [goDate]
  rw [show nsec / 1000000000 = 0 from by omega, show nsec % 1000000000 = nsec from by omega]
  rw [show sec + 0 = sec from by ring]
  rw [show sec / 60 = 0 from by omega, show sec % 60 = sec from by omega]
  rw [show min + 0 = min from by ring]
  rw [show min / 60 = 0 from by omega, show min % 60 = min from by omega]
  rw [show hour + 0 = hour from by ring]
  rw [show hour / 24 = 0 from by omega, show hour % 24 = hour from by omega]
  rw [show day + 0 = day from by ring]
  rw [show (month - 1) / 12 = 0 from by omega, show (month - 1) % 12 = month - 1 from by omega]
  rw [show year + 0 = year from by ring, show month - 1 + 1 = month from by ring]

theorem goDate_clock (h mi : Int) (hh : 0 ≤ h ∧ h < 24) (hm : 0 ≤ mi ∧ mi < 60) :
    goDate 1 1 1 h mi 0 0 0 = ⟨h * 3600 + mi * 60, 0, 0⟩ := by
  rw [goDate_eval 1 1 1 h mi 0 0 0 (by omega) (by omega) hm hh (by omega)]
  rw [show daysFromCivil 1 1 1 = 0 from by decide]
  simp

/-! ## Format/parse round trips for the three layouts -/

theorem fmtInt_nonneg (w : Nat) (x : Int) (h : 0 ≤ x) : fmtInt w x = padNat w x.toNat := by
  rw [fmtInt, if_neg (by omega)]

theorem daysIn_bounds (m y : Int) : 28 ≤ daysIn m y ∧ daysIn m y ≤ 31 := by
  unfold daysIn
  split_ifs <;> omega

theorem goParseDate_fmtDate (t : GoTime) (hc : dateCanonical t) (hy : yearRepresentable t) :
    goParseDate (fmtDate t) = some (t.year, t.month, t.day) ∧
      daysFromCivil t.year t.month t.day = t.sec / 86400 := by
  obtain ⟨ho, hn, hq⟩ := hc
  obtain ⟨hy0, hy1⟩ := hy
  have hcfd : civilFromDays t.days = (t.year, t.month, t.day) := rfl
  obtain ⟨hval, hm1, hm2, hd1, hd2⟩ := civilFromDays_daysFromCivil t.days _ _ _ hcfd
  have hdays : t.days = t.sec / 86400 := by
    simp only [GoTime.days, GoTime.localSec, ho, add_zero]
  -- the year field
  obtain ⟨hylen, hydig, hyval⟩ := padNat_spec 4 t.year.toNat (by omega) (by omega)
  obtain ⟨a, b, c, d, hy4⟩ := list_four_of_len _ hylen
  -- the month field
  obtain ⟨hmlen, hmdig, hmval⟩ := padNat_spec 2 t.month.toNat (by omega) (by omega)
  obtain ⟨e, f, hm2'⟩ := list_two_of_len _ hmlen
  -- the day field
  have hdib := daysIn_bounds t.month t.year
  obtain ⟨hdlen, hddig, hdval⟩ := padNat_spec 2 t.day.toNat (by omega) (by omega)
  obtain ⟨g, i, hd2'⟩ := list_two_of_len _ hdlen
  have hfmt : fmtDate t = [a, b, c, d, '-', e, f, '-', g, i] := by
    rw [fmtDate, fmtInt_nonneg 4 t.year hy0, fmtInt_nonneg 2 t.month (by omega),
      fmtInt_nonneg 2 t.day (by omega), hy4, hm2', hd2']
    rfl
  rw [hy4] at hydig hyval
  rw [hm2'] at hmdig hmval
  rw [hd2'] at hddig hdval
  have hya : isDigitChar a = true := hydig a (by simp)
  have hyb : isDigitChar b = true := hydig b (by simp)
  have hyc : isDigitChar c = true := hydig c (by simp)
  have hyd : isDigitChar d = true := hydig d (by simp)
  have hme : isDigitChar e = true := hmdig e (by simp)
  have hmf : isDigitChar f = true := hmdig f (by simp)
  have hdg : isDigitChar g = true := hddig g (by simp)
  have hdi : isDigitChar i = true := hddig i (by simp)
  have hyv : Int.ofNat (digitsVal [a, b, c, d]) = t.year := by
    rw [hyval]
    exact Int.toNat_of_nonneg hy0
  have hmv : Int.ofNat (digitsVal [e, f]) = t.month := by
    rw [hmval]
    exact Int.toNat_of_nonneg (by omega)
  have hdv : Int.ofNat (digitsVal [g, i]) = t.day := by
    rw [hdval]
    exact Int.toNat_of_nonneg (by omega)
  refine ⟨?_, by omega⟩
  rw [hfmt]
  simp only [goParseDate]
  split_ifs with hg1 hg2
  · rw [hyv, hmv, hdv]
  · rw [hyv, hmv, hdv] at hg2
    exact absurd ⟨hm1, hm2, hd1, hd2⟩ hg2
  · exact absurd ⟨hya, hyb, hyc, hyd, trivial, hme, hmf, trivial, hdg, hdi⟩ hg1

theorem goParseHM_fmtHM (t : GoTime) (hc : todCanonical t) :
    goParseHM (fmtHM t) = some (t.hour, t.minute) ∧
      t.hour * 3600 + t.minute * 60 = t.sec := by
  obtain ⟨ho, hn, h0, h1, h60⟩ := hc
  have hclock : t.clockSec = t.sec := by
    simp only [GoTime.clockSec, GoTime.localSec, ho, add_zero]
    omega
  have hhb : 0 ≤ t.hour ∧ t.hour < 24 := by
    simp only [GoTime.hour, hclock]
    omega
  have hmb : 0 ≤ t.minute ∧ t.minute < 60 := by
    simp only [GoTime.minute, hclock]
    omega
  obtain ⟨hhlen, hhdig, hhval⟩ := padNat_spec 2 t.hour.toNat (by omega) (by omega)
  obtain ⟨a, b, hh2⟩ := list_two_of_len _ hhlen
  obtain ⟨hmlen, hmdig, hmval⟩ := padNat_spec 2 t.minute.toNat (by omega) (by omega)
  obtain ⟨e, f, hm2⟩ := list_two_of_len _ hmlen
  have hfmt : fmtHM t = [a, b, ':', e, f] := by
    rw [fmtHM, fmtInt_nonneg 2 t.hour hhb.1, fmtInt_nonneg 2 t.minute hmb.1, hh2, hm2]
    rfl
  rw [hh2] at hhdig hhval
  rw [hm2] at hmdig hmval
  have hda : isDigitChar a = true := hhdig a (by simp)
  have hdb : isDigitChar b = true := hhdig b (by simp)
  have hde : isDigitChar e = true := hmdig e (by simp)
  have hdf : isDigitChar f = true := hmdig f (by simp)
  have hhv : Int.ofNat (digitsVal [a, b]) = t.hour := by
    rw [hhval]
    exact Int.toNat_of_nonneg hhb.1
  have hmv : Int.ofNat (digitsVal [e, f]) = t.minute := by
    rw [hmval]
    exact Int.toNat_of_nonneg hmb.1
  constructor
  · rw [hfmt]
    simp only [goParseHM]
    split_ifs with hg1 hg2
    · rw [hhv, hmv]
    · rw [hhv, hmv] at hg2
      exact absurd ⟨hhb.2, hmb.2⟩ hg2
    · exact absurd ⟨True.intro, hda, hdb, hde, hdf⟩ hg1
  · simp only [GoTime.hour, GoTime.minute, hclock]
    omega

theorem goParseRFC3339_fmtRFC3339 (t : GoTime) (hc : tsCanonical t)
    (hy : yearRepresentable t) :
    goParseRFC3339 (fmtRFC3339 t) = some t := by
  obtain ⟨ho, hn⟩ := hc
  obtain ⟨hy0, hy1⟩ := hy
  have hcfd : civilFromDays t.days = (t.year, t.month, t.day) := rfl
  obtain ⟨hval, hm1, hm2, hd1, hd2⟩ := civilFromDays_daysFromCivil t.days _ _ _ hcfd
  have hdib := daysIn_bounds t.month t.year
  have hclock1 : t.clockSec = t.sec % 86400 := by
    simp [GoTime.clockSec, GoTime.localSec, ho]
  have hclock2 : t.days = t.sec / 86400 := by
    simp [GoTime.days, GoTime.localSec, ho]
  have hhb : 0 ≤ t.hour ∧ t.hour < 24 := by
    simp only [GoTime.hour, hclock1]
    omega
  have hmb : 0 ≤ t.minute ∧ t.minute < 60 := by
    simp only [GoTime.minute, hclock1]
    omega
  have hsb : 0 ≤ t.second ∧ t.second < 60 := by
    simp only [GoTime.second, hclock1]
    omega
  obtain ⟨hylen, hydig, hyval⟩ := padNat_spec 4 t.year.toNat (by omega) (by omega)
  obtain ⟨a, b, c, d, hy4⟩ := list_four_of_len _ hylen
  obtain ⟨hmlen, hmdig, hmval⟩ := padNat_spec 2 t.month.toNat (by omega) (by omega)
  obtain ⟨e, f, hmo2⟩ := list_two_of_len _ hmlen
  obtain ⟨hdlen, hddig, hdval⟩ := padNat_spec 2 t.day.toNat (by omega) (by omega)
  obtain ⟨g, i, hda2⟩ := list_two_of_len _ hdlen
  obtain ⟨hhlen, hhdig, hhval⟩ := padNat_spec 2 t.hour.toNat (by omega) (by omega)
  obtain ⟨p, q, hho2⟩ := list_two_of_len _ hhlen
  obtain ⟨hnlen, hndig, hnval⟩ := padNat_spec 2 t.minute.toNat (by omega) (by omega)
  obtain ⟨u, v, hmi2⟩ := list_two_of_len _ hnlen
  obtain ⟨hslen, hsdig, hsval⟩ := padNat_spec 2 t.second.toNat (by omega) (by omega)
  obtain ⟨w, x, hse2⟩ := list_two_of_len _ hslen
  have hfmt : fmtRFC3339 t =
      [a, b, c, d, '-', e, f, '-', g, i, 'T', p, q, ':', u, v, ':', w, x, 'Z'] := by
    rw [fmtRFC3339, fmtDate, fmtZone, if_pos ho,
      fmtInt_nonneg 4 t.year hy0, fmtInt_nonneg 2 t.month (by omega),
      fmtInt_nonneg 2 t.day (by omega), fmtInt_nonneg 2 t.hour hhb.1,
      fmtInt_nonneg 2 t.minute hmb.1, fmtInt_nonneg 2 t.second hsb.1,
      hy4, hmo2, hda2, hho2, hmi2, hse2]
    rfl
  rw [hy4] at hydig hyval
  rw [hmo2] at hmdig hmval
  rw [hda2] at hddig hdval
  rw [hho2] at hhdig hhval
  rw [hmi2] at hndig hnval
  rw [hse2] at hsdig hsval
  have hyv : Int.ofNat (digitsVal [a, b, c, d]) = t.year := by
    rw [hyval]; exact Int.toNat_of_nonneg hy0
  have hmov : Int.ofNat (digitsVal [e, f]) = t.month := by
    rw [hmval]; exact Int.toNat_of_nonneg (by omega)
  have hdav : Int.ofNat (digitsVal [g, i]) = t.day := by
    rw [hdval]; exact Int.toNat_of_nonneg (by omega)
  have hhov : Int.ofNat (digitsVal [p, q]) = t.hour := by
    rw [hhval]; exact Int.toNat_of_nonneg hhb.1
  have hmiv : Int.ofNat (digitsVal [u, v]) = t.minute := by
    rw [hnval]; exact Int.toNat_of_nonneg hmb.1
  have hsev : Int.ofNat (digitsVal [w, x]) = t.second := by
    rw [hsval]; exact Int.toNat_of_nonneg hsb.1
  rw [hfmt]
  simp only [goParseRFC3339]
  split_ifs with hg1 hg2
  · rw [hyv, hmov, hdav, hhov, hmiv, hsev]
    have hfr : splitFrac ['Z'] = ((0 : Int), ['Z']) := rfl
    rw [hfr]
    have hz : parseZone ['Z'] = some 0 := rfl
    simp only [hz]
    congr 1
    have hsec : daysFromCivil t.year t.month t.day * 86400 + t.hour * 3600 +
        t.minute * 60 + t.second - 0 = t.sec := by
      rw [hval, hclock2]
      simp only [GoTime.hour, GoTime.minute, GoTime.second, hclock1]
      omega
    calc (⟨daysFromCivil t.year t.month t.day * 86400 + t.hour * 3600 +
        t.minute * 60 + t.second - 0, 0, 0⟩ : GoTime) = ⟨t.sec, 0, 0⟩ := by rw [hsec]
      _ = t := by
        obtain ⟨s1, s2, s3⟩ := t
        simp only at ho hn
        rw [ho, hn]
  · rw [hyv, hmov, hdav, hhov, hmiv, hsev] at hg2
    exact absurd ⟨hm1, hm2, hd1, hd2, by omega, by omega, by omega⟩ hg2
  · refine absurd ⟨hydig a (by simp), hydig b (by simp), hydig c (by simp), hydig d (by simp),
      hmdig e (by simp), hmdig f (by simp), hddig g (by simp), hddig i (by simp),
      hhdig p (by simp), hhdig q (by simp), hndig u (by simp), hndig v (by simp),
      hsdig w (by simp), hsdig x (by simp), True.intro, True.intro, True.intro, True.intro, True.intro⟩ hg1

/-! ## Round trip of the JSON string codec -/

theorem fromHexChar_toHexChar (k : Nat) (h : k < 16) : fromHexChar (toHexChar k) = some k := by
  interval_cases k <;> decide

theorem hex4val_hex4 (n : Nat) (h : n < 65536) :
    hex4val (toHexChar (n / 4096 % 16)) (toHexChar (n / 256 % 16)) (toHexChar (n / 16 % 16))
      (toHexChar (n % 16)) = some n := by
  rw [hex4val, fromHexChar_toHexChar (n / 4096 % 16) (by omega),
    fromHexChar_toHexChar (n / 256 % 16) (by omega),
    fromHexChar_toHexChar (n / 16 % 16) (by omega),
    fromHexChar_toHexChar (n % 16) (by omega)]
  simp only [Option.some.injEq]
  omega

theorem jsonSafe_of_digit (c : Char) (h : isDigitChar c = true) : jsonSafe c = true := by
  simp only [isDigitChar, decide_eq_true_eq] at h
  simp only [jsonSafe, decide_eq_true_eq]
  omega

theorem flatten_escape_safe (s : GoStr) (h : ∀ c ∈ s, jsonSafe c = true) :
    (s.map escapeChar).flatten = s := by
  induction s with
  | nil => rfl
  | cons c s ih =>
    rw [List.map_cons, List.flatten_cons, escapeChar, if_pos (h c (by simp))]
    rw [ih (fun x hx => h x (by simp [hx]))]
    rfl

theorem escapeChar_len (c : Char) :
    1 ≤ (escapeChar c).length ∧ (escapeChar c).length ≤ 6 := by
  unfold escapeChar
  split_ifs <;> simp [hex4]

theorem jsonMarshalString_safe (s : GoStr) (h : ∀ c ∈ s, jsonSafe c = true) :
    jsonMarshalString s = '"' :: s ++ ['"'] := by
  unfold jsonMarshalString
  rw [flatten_escape_safe s h]

theorem unescapeAux_escape (s : GoStr) : ∀ fuel,
    ((s.map escapeChar).flatten).length < fuel →
    unescapeAux fuel ((s.map escapeChar).flatten) = some s := by
  induction s with
  | nil =>
    intro fuel hf
    obtain ⟨k, rfl⟩ : ∃ k, fuel = k + 1 := ⟨fuel - 1, by simp at hf; omega⟩
    rfl
  | cons c s ih =>
    intro fuel hf
    rw [List.map_cons, List.flatten_cons] at hf ⊢
    obtain ⟨k, rfl⟩ : ∃ k, fuel = k + 1 := ⟨fuel - 1, by omega⟩
    rw [List.length_append] at hf
    have hel := escapeChar_len c
    by_cases h1 : jsonSafe c = true
    · rw [escapeChar, if_pos h1]
      have hc1 : ¬ c = '\\' := by
        intro he
        subst he
        simp [jsonSafe] at h1
      have hc2 : ¬ c = '"' := by
        intro he
        subst he
        simp [jsonSafe] at h1
      have hc3 : ¬ c.toNat < 32 := by
        simp only [jsonSafe, decide_eq_true_eq] at h1
        omega
      rw [List.cons_append, List.nil_append]
      rw [show unescapeAux (k + 1) (c :: (s.map escapeChar).flatten) =
          ((c :: ·) <$> unescapeAux k ((s.map escapeChar).flatten)) from by
        simp only [unescapeAux]
        rw [if_neg hc1, if_neg hc2, if_neg hc3]]
      rw [ih k (by omega)]
      rfl
    · rw [escapeChar, if_neg h1]
      by_cases h2 : c = '"'
      · subst h2
        rw [if_pos rfl, List.cons_append, List.cons_append, List.nil_append]
        simp only [unescapeAux, Char.reduceEq, reduceIte]
        rw [ih k (by omega)]
        rfl
      · rw [if_neg h2]
        by_cases h3 : c = '\\'
        · subst h3
          rw [if_pos rfl, List.cons_append, List.cons_append, List.nil_append]
          simp only [unescapeAux, Char.reduceEq, reduceIte]
          rw [ih k (by omega)]
          rfl
        · rw [if_neg h3]
          by_cases h4 : c = '\n'
          · subst h4
            rw [if_pos rfl, List.cons_append, List.cons_append, List.nil_append]
            simp only [unescapeAux, Char.reduceEq, reduceIte]
            rw [ih k (by omega)]
            rfl
          · rw [if_neg h4]
            by_cases h5 : c = '\r'
            · subst h5
              rw [if_pos rfl, List.cons_append, List.cons_append, List.nil_append]
              simp only [unescapeAux, Char.reduceEq, reduceIte]
              rw [ih k (by omega)]
              rfl
            · rw [if_neg h5]
              by_cases h6 : c = '\t'
              · subst h6
                rw [if_pos rfl, List.cons_append, List.cons_append, List.nil_append]
                simp only [unescapeAux, Char.reduceEq, reduceIte]
                rw [ih k (by omega)]
                rfl
              · rw [if_neg h6]
                have hne : c.toNat ≠ 34 ∧ c.toNat ≠ 92 ∧ c.toNat ≠ 10 ∧ c.toNat ≠ 13 ∧
                    c.toNat ≠ 9 ∧ c.toNat ≠ 117 ∧ c.toNat < 55296 := by
                  simp only [jsonSafe, decide_eq_true_eq] at h1
                  have e2 : c.toNat ≠ 34 := fun he => h2 (char_eq_of_toNat_eq c '"' (by simpa))
                  have e3 : c.toNat ≠ 92 := fun he => h3 (char_eq_of_toNat_eq c '\\' (by simpa))
                  have e4 : c.toNat ≠ 10 := fun he => h4 (char_eq_of_toNat_eq c '\n' (by simpa))
                  have e5 : c.toNat ≠ 13 := fun he => h5 (char_eq_of_toNat_eq c '\r' (by simpa))
                  have e6 : c.toNat ≠ 9 := fun he => h6 (char_eq_of_toNat_eq c '\t' (by simpa))
                  have e7 : c.toNat ≠ 117 := by
                    intro he
                    omega
                  omega
                rw [hex4]
                rw [show ('\\' :: 'u' :: [toHexChar (c.toNat / 4096 % 16),
                    toHexChar (c.toNat / 256 % 16), toHexChar (c.toNat / 16 % 16),
                    toHexChar (c.toNat % 16)] ++ (s.map escapeChar).flatten) =
                  '\\' :: 'u' :: toHexChar (c.toNat / 4096 % 16) ::
                    toHexChar (c.toNat / 256 % 16) :: toHexChar (c.toNat / 16 % 16) ::
                    toHexChar (c.toNat % 16) :: (s.map escapeChar).flatten from rfl]
                simp only [unescapeAux, Char.reduceEq, reduceIte,
                  hex4val_hex4 c.toNat (by omega)]
                rw [if_neg (show ¬(55296 ≤ c.toNat ∧ c.toNat < 56320) from by omega),
                  if_neg (show ¬(56320 ≤ c.toNat ∧ c.toNat < 57344) from by omega)]
                rw [ih k (by omega)]
                rw [Char.ofNat_toNat]
                rfl

theorem jsonUnmarshal_marshal (s : GoStr) :
    jsonUnmarshalString (jsonMarshalString s) = some s := by
  unfold jsonMarshalString jsonUnmarshalString
  dsimp only
  rw [List.cons_append]
  have hq : isJSONSpace '"' = false := by decide
  have h1 : List.dropWhile isJSONSpace ('"' :: ((s.map escapeChar).flatten ++ ['"'])) =
      '"' :: ((s.map escapeChar).flatten ++ ['"']) := by
    rw [List.dropWhile_cons, hq]
    simp
  rw [h1]
  have h2 : ('"' :: ((s.map escapeChar).flatten ++ ['"'])).reverse =
      '"' :: ((s.map escapeChar).flatten.reverse ++ ['"']) := by
    simp
  rw [h2]
  rw [List.dropWhile_cons, hq]
  simp only [Bool.false_eq_true, if_neg, ite_false]
  have h3 : ('"' :: ((s.map escapeChar).flatten.reverse ++ ['"'])).reverse =
      '"' :: ((s.map escapeChar).flatten ++ ['"']) := by
    simp
  rw [h3]
  have h4 : (s.map escapeChar).flatten ++ ['"'] ≠ [] := by simp
  have h5 : ((s.map escapeChar).flatten ++ ['"']).getLast? = some '"' := by
    simp [List.getLast?_append]
  show (if ((s.map escapeChar).flatten ++ ['"']) = [] then (none : Option GoStr)
    else if ((s.map escapeChar).flatten ++ ['"']).getLast? = some '"' then
      unescapeChars ((s.map escapeChar).flatten ++ ['"']).dropLast
    else none) = some s
  rw [if_neg h4, if_pos h5]
  rw [List.dropLast_concat]
  exact unescapeAux_escape s _ (by omega)

/-! ## Support lemmas about canonical instances and the codec paths -/

theorem GoTime.utc_eq (t : GoTime) (h : t.offset = 0) : t.utc = t := by
  obtain ⟨s, n, o⟩ := t
  simp only [GoTime.utc]
  simp at h
  rw [h]

theorem GoTime.truncateSecond_eq (t : GoTime) (h : t.nsec = 0) : t.truncateSecond = t := by
  obtain ⟨s, n, o⟩ := t
  simp only [GoTime.truncateSecond]
  simp at h
  rw [h]

theorem date_parse_fmt (r : types.Date) (t : GoTime) (hc : dateCanonical t)
    (hy : yearRepresentable t) :
    types.Date.parseDateString r (fmtDate t) = (⟨t, true⟩, none) := by
  obtain ⟨hp, hdfc⟩ := goParseDate_fmtDate t hc hy
  have hne : fmtDate t ≠ [] := by
    intro h0
    rw [h0] at hp
    rw [show goParseDate ([] : GoStr) = none from rfl] at hp
    cases hp
  have ht : (⟨daysFromCivil t.year t.month t.day * 86400, 0, 0⟩ : GoTime) = t := by
    have h1 : daysFromCivil t.year t.month t.day * 86400 = t.sec := by
      rw [hdfc]
      have hq := hc.2.2
      omega
    rw [h1]
    obtain ⟨s, n, o⟩ := t
    obtain ⟨ho, hn, hq⟩ := hc
    simp only at ho hn
    simp only [GoTime.mk.injEq, true_and]
    exact ⟨hn.symm, ho.symm⟩
  unfold types.Date.parseDateString
  rw [if_neg hne, hp]
  show (⟨⟨daysFromCivil t.year t.month t.day * 86400, 0, 0⟩, true⟩, (none : Option GoErr)) =
    ((⟨t, true⟩ : types.Date), none)
  rw [ht]

theorem fmtHM_len (t : GoTime) (hc : todCanonical t) : (fmtHM t).length = 5 := by
  obtain ⟨ho, hn, h0, h1, h60⟩ := hc
  have hclock : t.clockSec = t.sec := by
    simp only [GoTime.clockSec, GoTime.localSec, ho, add_zero]
    omega
  have hhb : 0 ≤ t.hour ∧ t.hour < 24 := by
    simp only [GoTime.hour, hclock]
    omega
  have hmb : 0 ≤ t.minute ∧ t.minute < 60 := by
    simp only [GoTime.minute, hclock]
    omega
  obtain ⟨hhlen, _, _⟩ := padNat_spec 2 t.hour.toNat (by omega) (by omega)
  obtain ⟨hmlen, _, _⟩ := padNat_spec 2 t.minute.toNat (by omega) (by omega)
  rw [fmtHM, fmtInt_nonneg 2 t.hour hhb.1, fmtInt_nonneg 2 t.minute hmb.1]
  simp [hhlen, hmlen]

theorem time_parse_fmt (r : types.Time) (t : GoTime) (hc : todCanonical t) :
    types.Time.parseTimeString r (fmtHM t) = (⟨t, true⟩, none) := by
  obtain ⟨hp, hsec⟩ := goParseHM_fmtHM t hc
  have hlen := fmtHM_len t hc
  have hne : fmtHM t ≠ [] := by
    intro h0
    rw [h0] at hlen
    simp at hlen
  unfold types.Time.parseTimeString
  rw [if_neg hne]
  dsimp only
  have htake : (if 5 < (fmtHM t).length then (fmtHM t).take 5 else fmtHM t) = fmtHM t := by
    rw [hlen]
    norm_num
  rw [htake, hp]
  show (⟨goDate 1 1 1 t.hour t.minute 0 0 0, true⟩, (none : Option GoErr)) =
    ((⟨t, true⟩ : types.Time), none)
  have hhb : 0 ≤ t.hour ∧ t.hour < 24 := by
    obtain ⟨ho, hn, h0, h1, h60⟩ := hc
    have hclock : t.clockSec = t.sec := by
      simp only [GoTime.clockSec, GoTime.localSec, ho, add_zero]
      omega
    simp only [GoTime.hour, hclock]
    omega
  have hmb : 0 ≤ t.minute ∧ t.minute < 60 := by
    obtain ⟨ho, hn, h0, h1, h60⟩ := hc
    have hclock : t.clockSec = t.sec := by
      simp only [GoTime.clockSec, GoTime.localSec, ho, add_zero]
      omega
    simp only [GoTime.minute, hclock]
    omega
  rw [goDate_clock t.hour t.minute hhb hmb]
  have ht : (⟨t.hour * 3600 + t.minute * 60, 0, 0⟩ : GoTime) = t := by
    rw [hsec]
    obtain ⟨s, n, o⟩ := t
    obtain ⟨ho, hn, h0, h1, h60⟩ := hc
    simp only at ho hn
    simp only [GoTime.mk.injEq, true_and]
    exact ⟨hn.symm, ho.symm⟩
  rw [ht]

theorem ts_parse_fmt (r : types.Timestamp) (t : GoTime) (hc : tsCanonical t)
    (hy : yearRepresentable t) :
    types.Timestamp.parseTimestampString r (fmtRFC3339 t) = (⟨t, true⟩, none) := by
  have hp := goParseRFC3339_fmtRFC3339 t hc hy
  have hne : fmtRFC3339 t ≠ [] := by
    intro h0
    rw [h0] at hp
    rw [show goParseRFC3339 ([] : GoStr) = none from rfl] at hp
    cases hp
  unfold types.Timestamp.parseTimestampString
  rw [if_neg hne, hp]
  show (⟨t.utc.truncateSecond, true⟩, (none : Option GoErr)) =
    ((⟨t, true⟩ : types.Timestamp), none)
  rw [GoTime.utc_eq t hc.1, GoTime.truncateSecond_eq t hc.2]

/-! ## Error paths never mutate the receiver -/

theorem parseDateString_err (r : types.Date) (s : GoStr) (e : GoErr)
    (h : (types.Date.parseDateString r s).2 = some e) :
    (types.Date.parseDateString r s).1 = r := by
  unfold types.Date.parseDateString at h ⊢
  split_ifs at h ⊢ with h1
  rcases hres : goParseDate s with _ | ⟨y, mo, da⟩
  · rfl
  · rw [hres] at h
    exact Option.noConfusion (show (none : Option GoErr) = some e from h)

theorem parseTimeString_err (r : types.Time) (s : GoStr) (e : GoErr)
    (h : (types.Time.parseTimeString r s).2 = some e) :
    (types.Time.parseTimeString r s).1 = r := by
  unfold types.Time.parseTimeString at h ⊢
  split_ifs at h ⊢ with h1 h2
  · dsimp only at h ⊢
    rcases hres : goParseHM (s.take 5) with _ | ⟨hh, mi⟩
    · rfl
    · rw [hres] at h
      exact Option.noConfusion (show (none : Option GoErr) = some e from h)
  · dsimp only at h ⊢
    rcases hres : goParseHM s with _ | ⟨hh, mi⟩
    · rfl
    · rw [hres] at h
      exact Option.noConfusion (show (none : Option GoErr) = some e from h)

theorem parseTimestampString_err (r : types.Timestamp) (s : GoStr) (e : GoErr)
    (h : (types.Timestamp.parseTimestampString r s).2 = some e) :
    (types.Timestamp.parseTimestampString r s).1 = r := by
  unfold types.Timestamp.parseTimestampString at h ⊢
  split_ifs at h ⊢ with h1
  rcases hres : goParseRFC3339 s with _ | v
  · rfl
  · rw [hres] at h
    exact Option.noConfusion (show (none : Option GoErr) = some e from h)

theorem stringScan_err (r : types.String) (v : DriverValue) (e : GoErr)
    (h : (types.String.Scan r v).2 = some e) : (types.String.Scan r v).1 = r := by
  cases v with
  | null => simp [types.String.Scan] at h
  | int64 n => rfl
  | float64 => rfl
  | bool b => rfl
  | bytes b => simp [types.String.Scan] at h
  | str s => simp [types.String.Scan] at h
  | time t2 => rfl

theorem dateScan_err (r : types.Date) (v : DriverValue) (e : GoErr)
    (h : (types.Date.Scan r v).2 = some e) : (types.Date.Scan r v).1 = r := by
  cases v with
  | null => simp [types.Date.Scan] at h
  | int64 n => rfl
  | float64 => rfl
  | bool b => rfl
  | bytes b => exact parseDateString_err r b e h
  | str s => exact parseDateString_err r s e h
  | time t2 => simp [types.Date.Scan] at h

theorem timeScan_err (r : types.Time) (v : DriverValue) (e : GoErr)
    (h : (types.Time.Scan r v).2 = some e) : (types.Time.Scan r v).1 = r := by
  cases v with
  | null => simp [types.Time.Scan] at h
  | int64 n => rfl
  | float64 => rfl
  | bool b => rfl
  | bytes b => exact parseTimeString_err r b e h
  | str s => exact parseTimeString_err r s e h
  | time t2 => simp [types.Time.Scan] at h

theorem tsScan_err (r : types.Timestamp) (v : DriverValue) (e : GoErr)
    (h : (types.Timestamp.Scan r v).2 = some e) : (types.Timestamp.Scan r v).1 = r := by
  cases v with
  | null => simp [types.Timestamp.Scan] at h
  | int64 n => rfl
  | float64 => rfl
  | bool b => rfl
  | bytes b => exact parseTimestampString_err r b e h
  | str s => exact parseTimestampString_err r s e h
  | time t2 => simp [types.Timestamp.Scan] at h

theorem stringUnmarshal_err (r : types.String) (data : GoStr) (e : GoErr)
    (h : (types.String.UnmarshalJSON r data).2 = some e) :
    (types.String.UnmarshalJSON r data).1 = r := by
  unfold types.String.UnmarshalJSON at h ⊢
  split_ifs at h ⊢
  rcases hres : jsonUnmarshalString data with _ | str
  · rfl
  · rw [hres] at h
    exact Option.noConfusion (show (none : Option GoErr) = some e from h)

theorem dateUnmarshal_err (r : types.Date) (data : GoStr) (e : GoErr)
    (h : (types.Date.UnmarshalJSON r data).2 = some e) :
    (types.Date.UnmarshalJSON r data).1 = r := by
  unfold types.Date.UnmarshalJSON at h ⊢
  split_ifs at h ⊢
  all_goals exact parseDateString_err r _ e h

theorem timeUnmarshal_err (r : types.Time) (data : GoStr) (e : GoErr)
    (h : (types.Time.UnmarshalJSON r data).2 = some e) :
    (types.Time.UnmarshalJSON r data).1 = r := by
  unfold types.Time.UnmarshalJSON at h ⊢
  split_ifs at h ⊢
  all_goals exact parseTimeString_err r _ e h

theorem tsUnmarshal_err (r : types.Timestamp) (data : GoStr) (e : GoErr)
    (h : (types.Timestamp.UnmarshalJSON r data).2 = some e) :
    (types.Timestamp.UnmarshalJSON r data).1 = r := by
  unfold types.Timestamp.UnmarshalJSON at h ⊢
  split_ifs at h ⊢
  all_goals exact parseTimestampString_err r _ e h

/-- The quote-stripping step shared (inline) by the three temporal
`UnmarshalJSON`s: one layer of surrounding double quotes is removed exactly
when the payload has length at least two and both its first and last
characters are `"`. -/
def stripQuotes (data : GoStr) : GoStr :=
  if 2 ≤ data.length ∧ data.head? = some '"' ∧ data.getLast? = some '"'
  then (data.drop 1).dropLast else data

/-! ## Character safety of the wire formats -/

theorem padNat_digits (w n : Nat) : ∀ c ∈ padNat w n, isDigitChar c = true := by
  intro c hc
  unfold padNat at hc
  rcases List.mem_append.mp hc with hc | hc
  · rw [(List.mem_replicate.mp hc).2]
    decide
  · exact (natDigitsAux_spec (n + 1) n (by omega)).1 c hc

theorem fmtInt_safe (w : Nat) (x : Int) : ∀ c ∈ fmtInt w x, jsonSafe c = true := by
  intro c hc
  unfold fmtInt at hc
  split_ifs at hc
  · rcases List.mem_cons.mp hc with hc | hc
    · rw [hc]; decide
    · exact jsonSafe_of_digit c (padNat_digits w _ c hc)
  · exact jsonSafe_of_digit c (padNat_digits w _ c hc)

theorem fmtZone_safe (o : Int) : ∀ c ∈ fmtZone o, jsonSafe c = true := by
  intro c hc
  unfold fmtZone at hc
  split_ifs at hc with h0
  · simp only [List.mem_singleton] at hc
    rw [hc]; decide
  all_goals
    dsimp only at hc
    split_ifs at hc <;>
      (rcases List.mem_cons.mp hc with hc | hc
       · rw [hc]; decide
       · rcases List.mem_append.mp hc with hc | hc
         · exact fmtInt_safe 2 _ c hc
         · rcases List.mem_cons.mp hc with hc | hc
           · rw [hc]; decide
           · exact fmtInt_safe 2 _ c hc)

theorem fmtRFC3339_safe (t : GoTime) : ∀ c ∈ fmtRFC3339 t, jsonSafe c = true := by
  intro c hc
  unfold fmtRFC3339 fmtDate at hc
  simp only [List.mem_append, List.mem_cons, List.append_assoc, List.cons_append] at hc
  rcases hc with hc | hc | hc | hc | hc | hc | hc | hc | hc | hc | hc | hc
  · exact fmtInt_safe 4 t.year c hc
  · rw [hc]; decide
  · exact fmtInt_safe 2 t.month c hc
  · rw [hc]; decide
  · exact fmtInt_safe 2 t.day c hc
  · rw [hc]; decide
  · exact fmtInt_safe 2 t.hour c hc
  · rw [hc]; decide
  · exact fmtInt_safe 2 t.minute c hc
  · rw [hc]; decide
  · exact fmtInt_safe 2 t.second c hc
  · exact fmtZone_safe t.offset c hc

/-! ## Quote stripping helpers -/

theorem quoted_ne_null (s : GoStr) : '"' :: s ++ ['"'] ≠ gs ("null") := by
  intro h
  have hn : gs ("null") = ['n', 'u', 'l', 'l'] := rfl
  rw [hn, List.cons_append] at h
  have := (List.cons.injEq _ _ _ _).mp h
  exact absurd this.1 (by decide)

theorem quoted_ne_emptyquotes (s : GoStr) (hne : s ≠ []) : '"' :: s ++ ['"'] ≠ ['"', '"'] := by
  intro h
  have hl := congrArg List.length h
  simp [List.length_append] at hl
  exact hne hl

theorem stripQuotes_quoted (s : GoStr) : stripQuotes ('"' :: s ++ ['"']) = s := by
  unfold stripQuotes
  rw [List.cons_append]
  rw [if_pos ?_]
  · rw [show List.drop 1 ('"' :: (s ++ ['"'])) = s ++ ['"'] from rfl]
    exact List.dropLast_concat
  · refine ⟨by simp, rfl, ?_⟩
    rw [← List.cons_append]
    exact List.getLast?_concat _

theorem date_unmarshal_quoted (r : types.Date) (s : GoStr) (hne : s ≠ []) :
    types.Date.UnmarshalJSON r ('"' :: s ++ ['"']) = types.Date.parseDateString r s := by
  unfold types.Date.UnmarshalJSON
  rw [if_neg (by push_neg; exact ⟨quoted_ne_null s, quoted_ne_emptyquotes s hne⟩)]
  show types.Date.parseDateString r (stripQuotes ('"' :: s ++ ['"'])) =
    types.Date.parseDateString r s
  rw [stripQuotes_quoted]

theorem time_unmarshal_quoted (r : types.Time) (s : GoStr) (hne : s ≠ []) :
    types.Time.UnmarshalJSON r ('"' :: s ++ ['"']) = types.Time.parseTimeString r s := by
  unfold types.Time.UnmarshalJSON
  rw [if_neg (by push_neg; exact ⟨quoted_ne_null s, quoted_ne_emptyquotes s hne⟩)]
  show types.Time.parseTimeString r (stripQuotes ('"' :: s ++ ['"'])) =
    types.Time.parseTimeString r s
  rw [stripQuotes_quoted]

theorem ts_unmarshal_quoted (r : types.Timestamp) (s : GoStr) (hne : s ≠ []) :
    types.Timestamp.UnmarshalJSON r ('"' :: s ++ ['"']) =
      types.Timestamp.parseTimestampString r s := by
  unfold types.Timestamp.UnmarshalJSON
  rw [if_neg (by push_neg; exact ⟨quoted_ne_null s, quoted_ne_emptyquotes s hne⟩)]
  show types.Timestamp.parseTimestampString r (stripQuotes ('"' :: s ++ ['"'])) =
    types.Timestamp.parseTimestampString r s
  rw [stripQuotes_quoted]

/-! ## Claim C1: driver round trip -/

/-- Claim C1 (amended). Scanning the driver value produced by `Value` back into any
receiver reconstructs the original instance exactly: unconditionally for `String`,
and for `Date`, `Time` and `Timestamp` whenever the stored `time.Time` is in the
type's canonical storage form (UTC midnight for `Date`, with a four-digit year;
UTC whole-minute clock anchored to 0001-01-01 for `Time`; UTC whole seconds for
`Timestamp`). Without the canonical-form condition the round trip can fail (see
the counterexample). -/
theorem c1_driver_round_trip :
    (∀ (r x : types.String), x.Valid = true →
      types.String.Scan r (types.String.Value x) = (x, none)) ∧
    (∀ (r x : types.Date), x.Valid = true → dateCanonical x.Time → yearRepresentable x.Time →
      types.Date.Scan r (types.Date.Value x) = (x, none)) ∧
    (∀ (r x : types.Time), x.Valid = true → todCanonical x.Time →
      types.Time.Scan r (types.Time.Value x) = (x, none)) ∧
    (∀ (r x : types.Timestamp), x.Valid = true → tsCanonical x.Time →
      types.Timestamp.Scan r (types.Timestamp.Value x) = (x, none)) := by
  refine ⟨?_, ?_, ?_, ?_⟩
  · rintro r ⟨v, b⟩ hb
    have hb2 : b = true := hb
    subst hb2
    rfl
  · rintro r ⟨t, b⟩ hb hc hy
    have hb2 : b = true := hb
    subst hb2
    show types.Date.Scan r (.str (fmtDate t)) = (⟨t, true⟩, none)
    exact date_parse_fmt r t hc hy
  · rintro r ⟨t, b⟩ hb hc
    have hb2 : b = true := hb
    subst hb2
    show types.Time.Scan r (.str (fmtHM t)) = (⟨t, true⟩, none)
    exact time_parse_fmt r t hc
  · rintro r ⟨t, b⟩ hb hc
    have hb2 : b = true := hb
    subst hb2
    have h1 : t.utc.truncateSecond = t := by
      rw [GoTime.utc_eq t hc.1, GoTime.truncateSecond_eq t hc.2]
    show types.Timestamp.Scan r (.time (t.utc.truncateSecond)) = (⟨t, true⟩, none)
    rw [h1]
    show ((⟨t.utc.truncateSecond, true⟩ : types.Timestamp), (none : Option GoErr)) =
      (⟨t, true⟩, none)
    rw [h1]

/-- Witness for C1 at concrete canonical instances
(2024-03-05, 09:15, 2024-03-05T09:15:30Z). -/
theorem c1_driver_round_trip_witness :
    types.String.Scan ⟨[], false⟩ (types.String.Value ⟨gs ("hi"), true⟩) =
      (⟨gs ("hi"), true⟩, none) ∧
    types.Date.Scan ⟨zeroTime, false⟩ (types.Date.Value ⟨⟨63845193600, 0, 0⟩, true⟩) =
      (⟨⟨63845193600, 0, 0⟩, true⟩, none) ∧
    types.Time.Scan ⟨zeroTime, false⟩ (types.Time.Value ⟨⟨33300, 0, 0⟩, true⟩) =
      (⟨⟨33300, 0, 0⟩, true⟩, none) ∧
    types.Timestamp.Scan ⟨zeroTime, false⟩
        (types.Timestamp.Value ⟨⟨63845226930, 0, 0⟩, true⟩) =
      (⟨⟨63845226930, 0, 0⟩, true⟩, none) :=
  ⟨c1_driver_round_trip.1 ⟨[], false⟩ ⟨gs ("hi"), true⟩ rfl,
   c1_driver_round_trip.2.1 ⟨zeroTime, false⟩ ⟨⟨63845193600, 0, 0⟩, true⟩ rfl
     ⟨rfl, rfl, by decide⟩ ⟨by decide, by decide⟩,
   c1_driver_round_trip.2.2.1 ⟨zeroTime, false⟩ ⟨⟨33300, 0, 0⟩, true⟩ rfl
     ⟨rfl, rfl, by decide, by decide, by decide⟩,
   c1_driver_round_trip.2.2.2 ⟨zeroTime, false⟩ ⟨⟨63845226930, 0, 0⟩, true⟩ rfl ⟨rfl, rfl⟩⟩

/-- Counterexample to C1 as stated: a valid `Date` in a non-UTC location
(2024-03-05 15:00 UTC seen in UTC-5, truncated by `NewDate`) survives `Value`
with a nil error but scans back to a different instance. -/
theorem c1_driver_round_trip_counterexample :
    (types.NewDate ⟨63845247600, 0, -18000⟩).Valid = true ∧
    (types.Date.Scan ⟨zeroTime, false⟩
        (types.Date.Value (types.NewDate ⟨63845247600, 0, -18000⟩))).2 = none ∧
    (types.Date.Scan ⟨zeroTime, false⟩
        (types.Date.Value (types.NewDate ⟨63845247600, 0, -18000⟩))).1 ≠
      types.NewDate ⟨63845247600, 0, -18000⟩ := by
  decide

/-! ## Claim C2: JSON document round trip -/

/-- Claim C2 (amended). Unmarshalling the exact bytes produced by `MarshalJSON`
into any receiver reconstructs the original instance with a nil error:
unconditionally for `String`, and for `Date`, `Time` and `Timestamp` whenever the
stored `time.Time` is in the type's canonical storage form (with a four-digit
year where the wire format carries one). Without the canonical-form condition
the round trip can fail (see the counterexample). -/
theorem c2_document_round_trip :
    (∀ (r x : types.String), x.Valid = true →
      types.String.UnmarshalJSON r (types.String.MarshalJSON x) = (x, none)) ∧
    (∀ (r x : types.Date), x.Valid = true → dateCanonical x.Time → yearRepresentable x.Time →
      types.Date.UnmarshalJSON r (types.Date.MarshalJSON x) = (x, none)) ∧
    (∀ (r x : types.Time), x.Valid = true → todCanonical x.Time →
      types.Time.UnmarshalJSON r (types.Time.MarshalJSON x) = (x, none)) ∧
    (∀ (r x : types.Timestamp), x.Valid = true → tsCanonical x.Time →
      yearRepresentable x.Time →
      types.Timestamp.UnmarshalJSON r (types.Timestamp.MarshalJSON x) = (x, none)) := by
  refine ⟨?_, ?_, ?_, ?_⟩
  · rintro r ⟨v, b⟩ hb
    have hb2 : b = true := hb
    subst hb2
    show types.String.UnmarshalJSON r (jsonMarshalString v) = (⟨v, true⟩, none)
    unfold types.String.UnmarshalJSON
    have hne : jsonMarshalString v ≠ gs ("null") := by
      unfold jsonMarshalString
      exact quoted_ne_null _
    rw [if_neg hne, jsonUnmarshal_marshal v]
  · rintro r ⟨t, b⟩ hb hc hy
    have hb2 : b = true := hb
    subst hb2
    have hne : fmtDate t ≠ [] := by
      intro h0
      have hp := (goParseDate_fmtDate t hc hy).1
      rw [h0] at hp
      exact Option.noConfusion (show (none : Option (Int × Int × Int)) = some _ from hp)
    show types.Date.UnmarshalJSON r ('"' :: fmtDate t ++ ['"']) = (⟨t, true⟩, none)
    rw [date_unmarshal_quoted r (fmtDate t) hne]
    exact date_parse_fmt r t hc hy
  · rintro r ⟨t, b⟩ hb hc
    have hb2 : b = true := hb
    subst hb2
    have hne : fmtHM t ≠ [] := by
      intro h0
      have hl := fmtHM_len t hc
      rw [h0] at hl
      exact absurd hl (by decide)
    show types.Time.UnmarshalJSON r ('"' :: fmtHM t ++ ['"']) = (⟨t, true⟩, none)
    rw [time_unmarshal_quoted r (fmtHM t) hne]
    exact time_parse_fmt r t hc
  · rintro r ⟨t, b⟩ hb hc hy
    have hb2 : b = true := hb
    subst hb2
    have h1 : t.utc.truncateSecond = t := by
      rw [GoTime.utc_eq t hc.1, GoTime.truncateSecond_eq t hc.2]
    have hne : fmtRFC3339 t ≠ [] := by
      intro h0
      have hp := goParseRFC3339_fmtRFC3339 t hc hy
      rw [h0] at hp
      exact Option.noConfusion (show (none : Option GoTime) = some t from hp)
    show types.Timestamp.UnmarshalJSON r
      (jsonMarshalString (fmtRFC3339 (t.utc.truncateSecond))) = (⟨t, true⟩, none)
    rw [h1, jsonMarshalString_safe _ (fmtRFC3339_safe t)]
    rw [ts_unmarshal_quoted r (fmtRFC3339 t) hne]
    exact ts_parse_fmt r t hc hy

/-- Witness for C2 at concrete canonical instances. -/
theorem c2_document_round_trip_witness :
    types.String.UnmarshalJSON ⟨[], false⟩ (types.String.MarshalJSON ⟨gs ("hi"), true⟩) =
      (⟨gs ("hi"), true⟩, none) ∧
    types.Date.UnmarshalJSON ⟨zeroTime, false⟩
        (types.Date.MarshalJSON ⟨⟨63845193600, 0, 0⟩, true⟩) =
      (⟨⟨63845193600, 0, 0⟩, true⟩, none) ∧
    types.Time.UnmarshalJSON ⟨zeroTime, false⟩
        (types.Time.MarshalJSON ⟨⟨33300, 0, 0⟩, true⟩) =
      (⟨⟨33300, 0, 0⟩, true⟩, none) ∧
    types.Timestamp.UnmarshalJSON ⟨zeroTime, false⟩
        (types.Timestamp.MarshalJSON ⟨⟨63845226930, 0, 0⟩, true⟩) =
      (⟨⟨63845226930, 0, 0⟩, true⟩, none) :=
  ⟨c2_document_round_trip.1 ⟨[], false⟩ ⟨gs ("hi"), true⟩ rfl,
   c2_document_round_trip.2.1 ⟨zeroTime, false⟩ ⟨⟨63845193600, 0, 0⟩, true⟩ rfl
     ⟨rfl, rfl, by decide⟩ ⟨by decide, by decide⟩,
   c2_document_round_trip.2.2.1 ⟨zeroTime, false⟩ ⟨⟨33300, 0, 0⟩, true⟩ rfl
     ⟨rfl, rfl, by decide, by decide, by decide⟩,
   c2_document_round_trip.2.2.2 ⟨zeroTime, false⟩ ⟨⟨63845226930, 0, 0⟩, true⟩ rfl
     ⟨rfl, rfl⟩ ⟨by decide, by decide⟩⟩

/-- Counterexample to C2 as stated: a valid `Date` in a non-UTC location
(2024-03-05 01:00 UTC seen in UTC+5:30, truncated by `NewDate`) marshals without
error but unmarshals to a different instance. -/
theorem c2_document_round_trip_counterexample :
    (types.NewDate ⟨63845197200, 0, 19800⟩).Valid = true ∧
    (types.Date.UnmarshalJSON ⟨zeroTime, false⟩
        (types.Date.MarshalJSON (types.NewDate ⟨63845197200, 0, 19800⟩))).2 = none ∧
    (types.Date.UnmarshalJSON ⟨zeroTime, false⟩
        (types.Date.MarshalJSON (types.NewDate ⟨63845197200, 0, 19800⟩))).1 ≠
      types.NewDate ⟨63845197200, 0, 19800⟩ := by
  decide

/-! ## Claim C3: Timestamp normalization on every entry path -/

theorem ts_parse_canonical (r : types.Timestamp) (s : GoStr)
    (h : (types.Timestamp.parseTimestampString r s).2 = none) :
    tsCanonical ((types.Timestamp.parseTimestampString r s).1).Time := by
  unfold types.Timestamp.parseTimestampString at h ⊢
  split_ifs at h ⊢
  · exact ⟨rfl, rfl⟩
  · rcases hres : goParseRFC3339 s with _ | v
    · rw [hres] at h
      exact Option.noConfusion (show some (GoErr.invalidFormat ("Timestamp") ("RFC3339")) = none from h)
    · exact ⟨rfl, rfl⟩

/-- Claim C3 (amended). A present `Timestamp`'s stored instant is UTC-normalized
and truncated to whole seconds after `NewTimestamp`, after every successful
`Scan`, after every successful `parseTimestampString` and after every successful
`UnmarshalJSON`; on the `CombineDateAndTime` path the invariant holds only when
the date's location is UTC and the time carries no sub-second part — a zoned
date input violates it (see the counterexample). -/
theorem c3_timestamp_normalization :
    (∀ t : GoTime, tsCanonical (types.NewTimestamp t).Time) ∧
    (∀ (r : types.Timestamp) (v : DriverValue), (types.Timestamp.Scan r v).2 = none →
      tsCanonical ((types.Timestamp.Scan r v).1).Time) ∧
    (∀ (r : types.Timestamp) (s : GoStr),
      (types.Timestamp.parseTimestampString r s).2 = none →
      tsCanonical ((types.Timestamp.parseTimestampString r s).1).Time) ∧
    (∀ (r : types.Timestamp) (data : GoStr), (types.Timestamp.UnmarshalJSON r data).2 = none →
      tsCanonical ((types.Timestamp.UnmarshalJSON r data).1).Time) ∧
    (∀ (d : types.Date) (t : types.Time), d.Time.offset = 0 → t.Time.nsec = 0 →
      tsCanonical (types.CombineDateAndTime d t).Time) := by
  refine ⟨?_, ?_, ?_, ?_, ?_⟩
  · intro t
    exact ⟨rfl, rfl⟩
  · intro r v h
    cases v with
    | null => exact ⟨rfl, rfl⟩
    | time w => exact ⟨rfl, rfl⟩
    | bytes b => exact ts_parse_canonical r b h
    | str s => exact ts_parse_canonical r s h
    | int64 n => exact Option.noConfusion (show some (GoErr.unsupportedType ("Timestamp") ("int64")) = none from h)
    | float64 => exact Option.noConfusion (show some (GoErr.unsupportedType ("Timestamp") ("float64")) = none from h)
    | bool b => exact Option.noConfusion (show some (GoErr.unsupportedType ("Timestamp") ("bool")) = none from h)
  · exact ts_parse_canonical
  · intro r data h
    unfold types.Timestamp.UnmarshalJSON at h ⊢
    split_ifs at h ⊢
    · exact ⟨rfl, rfl⟩
    all_goals exact ts_parse_canonical r _ h
  · intro d t ho hn
    constructor
    · exact ho
    · show t.Time.nsec % 1000000000 = 0
      rw [hn]
      decide

/-- Witness for C3 on each entry path at concrete inputs. -/
theorem c3_timestamp_normalization_witness :
    tsCanonical (types.NewTimestamp ⟨63845226930, 500, 3600⟩).Time ∧
    tsCanonical ((types.Timestamp.Scan ⟨zeroTime, false⟩
      (.time ⟨63845226930, 500, 3600⟩)).1).Time ∧
    tsCanonical ((types.Timestamp.parseTimestampString ⟨zeroTime, false⟩
      (gs ("2024-03-05T09:15:30Z"))).1).Time ∧
    tsCanonical ((types.Timestamp.UnmarshalJSON ⟨zeroTime, false⟩
      ('"' :: gs ("2024-03-05T09:15:30Z") ++ ['"'])).1).Time ∧
    tsCanonical (types.CombineDateAndTime ⟨⟨63845193600, 0, 0⟩, true⟩
      ⟨⟨33300, 0, 0⟩, true⟩).Time :=
  ⟨c3_timestamp_normalization.1 ⟨63845226930, 500, 3600⟩,
   c3_timestamp_normalization.2.1 ⟨zeroTime, false⟩ (.time ⟨63845226930, 500, 3600⟩) rfl,
   c3_timestamp_normalization.2.2.1 ⟨zeroTime, false⟩ (gs ("2024-03-05T09:15:30Z"))
     (by decide),
   c3_timestamp_normalization.2.2.2.1 ⟨zeroTime, false⟩
     ('"' :: gs ("2024-03-05T09:15:30Z") ++ ['"']) (by decide),
   c3_timestamp_normalization.2.2.2.2 ⟨⟨63845193600, 0, 0⟩, true⟩
     ⟨⟨33300, 0, 0⟩, true⟩ rfl rfl⟩

/-- Counterexample to C3 as stated: combining a date whose location is UTC+2
with a plain midnight time yields a present `Timestamp` whose stored instant
still carries the +2h offset, i.e. it is not normalized to UTC. -/
theorem c3_timestamp_normalization_counterexample :
    (types.CombineDateAndTime (types.NewDate ⟨63845197200, 0, 7200⟩)
        (types.NewTime zeroTime)).Valid = true ∧
    (types.CombineDateAndTime (types.NewDate ⟨63845197200, 0, 7200⟩)
        (types.NewTime zeroTime)).Time.offset = 7200 := by
  decide

/-! ## Claim C4: CombineDateAndTime -/

/-- Claim C4. `CombineDateAndTime` always returns a present `Timestamp`; for
canonically stored inputs it composes the date's calendar day with the
time-of-day's clock (the stored instant is the sum of the two stored instants,
in UTC); and combining the scanned date `2024-03-05` with the scanned time
`09:15` yields exactly the instant `2024-03-05T09:15:00Z`. -/
theorem c4_combine :
    (∀ (d : types.Date) (t : types.Time), (types.CombineDateAndTime d t).Valid = true) ∧
    (∀ (d : types.Date) (t : types.Time), dateCanonical d.Time → todCanonical t.Time →
      (types.CombineDateAndTime d t).Time = ⟨d.Time.sec + t.Time.sec, 0, 0⟩) ∧
    types.CombineDateAndTime
        (types.Date.Scan ⟨zeroTime, false⟩ (.str (gs ("2024-03-05")))).1
        (types.Time.Scan ⟨zeroTime, false⟩ (.str (gs ("09:15")))).1 =
      ⟨⟨63845226900, 0, 0⟩, true⟩ ∧
    fmtRFC3339 ⟨63845226900, 0, 0⟩ = gs ("2024-03-05T09:15:00Z") := by
  refine ⟨fun d t => rfl, ?_, by decide, by decide⟩
  intro d t hd ht
  obtain ⟨ho, hn, hq⟩ := hd
  obtain ⟨ho2, hn2, h0, h1, h60⟩ := ht
  have hcfd : civilFromDays d.Time.days = (d.Time.year, d.Time.month, d.Time.day) := rfl
  obtain ⟨hval, hm1, hm2, hd1, hd2⟩ := civilFromDays_daysFromCivil d.Time.days _ _ _ hcfd
  have hdays : d.Time.days = d.Time.sec / 86400 := by
    simp only [GoTime.days, GoTime.localSec, ho, add_zero]
  have hclock : t.Time.clockSec = t.Time.sec := by
    simp only [GoTime.clockSec, GoTime.localSec, ho2, add_zero]
    omega
  have hhb : 0 ≤ t.Time.hour ∧ t.Time.hour < 24 := by
    simp only [GoTime.hour, hclock]
    omega
  have hmb : 0 ≤ t.Time.minute ∧ t.Time.minute < 60 := by
    simp only [GoTime.minute, hclock]
    omega
  have hsb : 0 ≤ t.Time.second ∧ t.Time.second < 60 := by
    simp only [GoTime.second, hclock]
    omega
  have hsecnd : t.Time.second = 0 := by
    simp only [GoTime.second, hclock]
    omega
  have hsum := (goParseHM_fmtHM t.Time ⟨ho2, hn2, h0, h1, h60⟩).2
  have hnano : t.Time.nanosecond = 0 := hn2
  show goDate d.Time.year d.Time.month d.Time.day t.Time.hour t.Time.minute t.Time.second
      t.Time.nanosecond d.Time.offset = ⟨d.Time.sec + t.Time.sec, 0, 0⟩
  rw [goDate_eval _ _ _ _ _ _ _ _ (by rw [hnano]; norm_num) hsb hmb hhb ⟨hm1, hm2⟩]
  rw [hval, hnano, ho, hsecnd]
  simp only [GoTime.mk.injEq, and_true]
  omega

/-- Witness for C4's canonical-composition conjunct at 2024-03-05 + 09:15. -/
theorem c4_combine_witness :
    (types.CombineDateAndTime ⟨⟨63845193600, 0, 0⟩, true⟩ ⟨⟨33300, 0, 0⟩, true⟩).Time =
      ⟨63845193600 + 33300, 0, 0⟩ :=
  c4_combine.2.1 ⟨⟨63845193600, 0, 0⟩, true⟩ ⟨⟨33300, 0, 0⟩, true⟩
    ⟨rfl, rfl, by decide⟩ ⟨rfl, rfl, by decide, by decide, by decide⟩

/-! ## Claim C5: Date truncation to the start of the day -/

/-- Claim C5 (amended). `NewDate` and `Date.Scan` on a native datetime store
`t.Truncate(24h)` with the present flag set: the instant is floored to a whole
multiple of 86400 seconds since the UTC epoch day boundary, keeping the
location. For a UTC input this is exactly the start of the input's calendar day
(zero clock, same year/month/day); for a non-UTC location the floored boundary
need not be the local midnight and can even shift the calendar date (see the
counterexample). -/
theorem c5_date_truncation :
    (∀ t : GoTime, types.NewDate t = ⟨⟨t.sec - t.sec % 86400, 0, t.offset⟩, true⟩) ∧
    (∀ (r : types.Date) (v : GoTime),
      types.Date.Scan r (.time v) = (⟨⟨v.sec - v.sec % 86400, 0, v.offset⟩, true⟩, none)) ∧
    (∀ t : GoTime, t.offset = 0 →
      (types.NewDate t).Time.hour = 0 ∧ (types.NewDate t).Time.minute = 0 ∧
      (types.NewDate t).Time.second = 0 ∧ (types.NewDate t).Time.nanosecond = 0 ∧
      (types.NewDate t).Time.year = t.year ∧ (types.NewDate t).Time.month = t.month ∧
      (types.NewDate t).Time.day = t.day) := by
  refine ⟨fun t => rfl, fun r v => rfl, ?_⟩
  intro t ho
  have hloc : (t.truncateDay).localSec = t.sec - t.sec % 86400 := by
    simp only [GoTime.truncateDay, GoTime.localSec, ho, add_zero]
  have hclock : (t.truncateDay).clockSec = 0 := by
    simp only [GoTime.clockSec, hloc]
    omega
  have hdays : (t.truncateDay).days = t.days := by
    have hloc2 : t.localSec = t.sec := by
      simp only [GoTime.localSec, ho, add_zero]
    simp only [GoTime.days, hloc, hloc2]
    omega
  refine ⟨?_, ?_, ?_, rfl, ?_, ?_, ?_⟩
  · show (t.truncateDay).clockSec / 3600 = 0
    simp [hclock]
  · show (t.truncateDay).clockSec / 60 % 60 = 0
    simp [hclock]
  · show (t.truncateDay).clockSec % 60 = 0
    simp [hclock]
  · show (civilFromDays (t.truncateDay).days).1 = (civilFromDays t.days).1
    rw [hdays]
  · show (civilFromDays (t.truncateDay).days).2.1 = (civilFromDays t.days).2.1
    rw [hdays]
  · show (civilFromDays (t.truncateDay).days).2.2 = (civilFromDays t.days).2.2
    rw [hdays]

/-- Witness for C5's UTC conjunct at 2024-03-05T09:15:30Z. -/
theorem c5_date_truncation_witness :
    (types.NewDate ⟨63845226930, 0, 0⟩).Time.hour = 0 ∧
    (types.NewDate ⟨63845226930, 0, 0⟩).Time.minute = 0 ∧
    (types.NewDate ⟨63845226930, 0, 0⟩).Time.second = 0 ∧
    (types.NewDate ⟨63845226930, 0, 0⟩).Time.nanosecond = 0 ∧
    (types.NewDate ⟨63845226930, 0, 0⟩).Time.year = (⟨63845226930, 0, 0⟩ : GoTime).year ∧
    (types.NewDate ⟨63845226930, 0, 0⟩).Time.month = (⟨63845226930, 0, 0⟩ : GoTime).month ∧
    (types.NewDate ⟨63845226930, 0, 0⟩).Time.day = (⟨63845226930, 0, 0⟩ : GoTime).day :=
  c5_date_truncation.2.2 ⟨63845226930, 0, 0⟩ rfl

/-- Counterexample to C5 as stated: for 2024-03-05 00:30 in UTC+2, `NewDate`
lands on 2024-03-04 02:00 local — neither that day's midnight nor the same
calendar date. -/
theorem c5_date_truncation_counterexample :
    (⟨63845188200, 0, 7200⟩ : GoTime).day = 5 ∧
    (⟨63845188200, 0, 7200⟩ : GoTime).hour = 0 ∧
    (types.NewDate ⟨63845188200, 0, 7200⟩).Valid = true ∧
    (types.NewDate ⟨63845188200, 0, 7200⟩).Time.day = 4 ∧
    (types.NewDate ⟨63845188200, 0, 7200⟩).Time.hour = 2 := by
  decide

/-! ## Claim C6: TimeOfDay text parser truncation -/

theorem goParseHM_five (h1 h2 c m1 m2 : Char) :
    goParseHM [h1, h2, c, m1, m2] =
      if c = ':' ∧ isDigitChar h1 ∧ isDigitChar h2 ∧ isDigitChar m1 ∧ isDigitChar m2 then
        if (Int.ofNat (digitsVal [h1, h2]) : Int) < 24 ∧
            (Int.ofNat (digitsVal [m1, m2]) : Int) < 60 then
          some (Int.ofNat (digitsVal [h1, h2]), Int.ofNat (digitsVal [m1, m2]))
        else none
      else none := rfl

theorem parseTime_take5 (r : types.Time) (s : GoStr) (h5 : 5 < s.length) :
    types.Time.parseTimeString r s = types.Time.parseTimeString r (s.take 5) := by
  have hne : s ≠ [] := by
    intro h0
    rw [h0] at h5
    simp at h5
  have hne2 : s.take 5 ≠ [] := by
    intro h0
    have hl := congrArg List.length h0
    rw [List.length_take] at hl
    simp only [List.length_nil] at hl
    omega
  unfold types.Time.parseTimeString
  rw [if_neg hne, if_neg hne2]
  dsimp only
  rw [if_pos h5, if_neg (show ¬5 < (s.take 5).length from by rw [List.length_take]; omega)]

/-- Claim C6. For inputs longer than five characters the time-of-day parser
only looks at the first five characters, silently discarding the rest: the
result is exactly the parse of the five-character prefix, failing with
`InvalidFormat` when that prefix is not a valid 24-hour `HH:MM` and succeeding
with the prefix's hour and minute otherwise; a five-character string parses
exactly when it is `HH:MM` with hour below 24 and minute below 60; and
`"09:15:30"` parses to the present value 09:15. -/
theorem c6_time_parser_truncation :
    (∀ (r : types.Time) (s : GoStr), 5 < s.length →
      types.Time.parseTimeString r s = types.Time.parseTimeString r (s.take 5)) ∧
    (∀ (r : types.Time) (s : GoStr), 5 < s.length → goParseHM (s.take 5) = none →
      types.Time.parseTimeString r s = (r, some (.invalidFormat ("Time") ("HH:MM")))) ∧
    (∀ (r : types.Time) (s : GoStr) (h mi : Int), 5 < s.length →
      goParseHM (s.take 5) = some (h, mi) →
      types.Time.parseTimeString r s = (⟨goDate 1 1 1 h mi 0 0 0, true⟩, none)) ∧
    (∀ h1 h2 c m1 m2 : Char, (goParseHM [h1, h2, c, m1, m2]).isSome = true ↔
      (c = ':' ∧ isDigitChar h1 = true ∧ isDigitChar h2 = true ∧ isDigitChar m1 = true ∧
        isDigitChar m2 = true ∧ digitsVal [h1, h2] < 24 ∧ digitsVal [m1, m2] < 60)) ∧
    (∀ r : types.Time, types.Time.parseTimeString r (gs ("09:15:30")) =
      (⟨⟨33300, 0, 0⟩, true⟩, none)) := by
  refine ⟨parseTime_take5, ?_, ?_, ?_, ?_⟩
  · intro r s h5 hnone
    have hne2 : s.take 5 ≠ [] := by
      intro h0
      have hl := congrArg List.length h0
      rw [List.length_take] at hl
      simp only [List.length_nil] at hl
      omega
    rw [parseTime_take5 r s h5]
    unfold types.Time.parseTimeString
    rw [if_neg hne2]
    dsimp only
    rw [if_neg (show ¬5 < (s.take 5).length from by rw [List.length_take]; omega), hnone]
  · intro r s h mi h5 hsome
    have hne2 : s.take 5 ≠ [] := by
      intro h0
      have hl := congrArg List.length h0
      rw [List.length_take] at hl
      simp only [List.length_nil] at hl
      omega
    rw [parseTime_take5 r s h5]
    unfold types.Time.parseTimeString
    rw [if_neg hne2]
    dsimp only
    rw [if_neg (show ¬5 < (s.take 5).length from by rw [List.length_take]; omega), hsome]
  · intro h1 h2 c m1 m2
    rw [goParseHM_five]
    simp only [Int.ofNat_eq_natCast]
    split_ifs with hc hv
    · simp only [Option.isSome_some, true_iff]
      obtain ⟨hcc, hd1, hd2, hd3, hd4⟩ := hc
      obtain ⟨hv1, hv2⟩ := hv
      exact ⟨hcc, hd1, hd2, hd3, hd4, by omega, by omega⟩
    · simp only [Option.isSome_none, Bool.false_eq_true, false_iff]
      intro hr
      obtain ⟨hcc, hd1, hd2, hd3, hd4, hlt1, hlt2⟩ := hr
      exact hv ⟨by omega, by omega⟩
    · simp only [Option.isSome_none, Bool.false_eq_true, false_iff]
      intro hr
      obtain ⟨hcc, hd1, hd2, hd3, hd4, hlt1, hlt2⟩ := hr
      exact hc ⟨hcc, hd1, hd2, hd3, hd4⟩
  · intro r
    rw [parseTime_take5 r _ (by decide)]
    unfold types.Time.parseTimeString
    rw [if_neg (show (gs ("09:15:30")).take 5 ≠ [] from by decide)]
    dsimp only
    rw [if_neg (show ¬5 < ((gs ("09:15:30")).take 5).length from by decide),
      show goParseHM ((gs ("09:15:30")).take 5) = some (9, 15) from by decide]
    show ((⟨goDate 1 1 1 9 15 0 0 0, true⟩ : types.Time), (none : Option GoErr)) =
      (⟨⟨33300, 0, 0⟩, true⟩, none)
    rw [show goDate 1 1 1 9 15 0 0 0 = ⟨33300, 0, 0⟩ from by decide]

/-- Witness for C6 at the concrete inputs `"09:15:30"` and `"9:15:30"`. -/
theorem c6_time_parser_truncation_witness :
    types.Time.parseTimeString ⟨zeroTime, false⟩ (gs ("09:15:30")) =
      types.Time.parseTimeString ⟨zeroTime, false⟩ ((gs ("09:15:30")).take 5) ∧
    types.Time.parseTimeString ⟨zeroTime, false⟩ (gs ("9:15:30")) =
      (⟨zeroTime, false⟩, some (.invalidFormat ("Time") ("HH:MM"))) ∧
    types.Time.parseTimeString ⟨zeroTime, false⟩ (gs ("09:15:30")) =
      (⟨goDate 1 1 1 9 15 0 0 0, true⟩, none) :=
  ⟨c6_time_parser_truncation.1 ⟨zeroTime, false⟩ (gs ("09:15:30")) (by decide),
   c6_time_parser_truncation.2.1 ⟨zeroTime, false⟩ (gs ("9:15:30")) (by decide) (by decide),
   c6_time_parser_truncation.2.2.1 ⟨zeroTime, false⟩ (gs ("09:15:30")) 9 15
     (by decide) (by decide)⟩

/-! ## Claim C7: Date.Scan error classification -/

/-- Claim C7. `Date.Scan` on the text `"13-99-99"` fails with `InvalidFormat`
naming the `YYYY-MM-DD` pattern, and on numeric driver values fails with
`UnsupportedSourceType` naming the offending kind. -/
theorem c7_date_scan_errors :
    (∀ r : types.Date, types.Date.Scan r (.str (gs ("13-99-99"))) =
      (r, some (.invalidFormat ("Date") ("YYYY-MM-DD")))) ∧
    (∀ (r : types.Date) (n : Int), types.Date.Scan r (.int64 n) =
      (r, some (.unsupportedType ("Date") ("int64")))) ∧
    (∀ r : types.Date, types.Date.Scan r .float64 =
      (r, some (.unsupportedType ("Date") ("float64")))) := by
  refine ⟨fun r => ?_, fun r n => rfl, fun r => rfl⟩
  show types.Date.parseDateString r (gs ("13-99-99")) = _
  unfold types.Date.parseDateString
  rw [if_neg (show gs ("13-99-99") ≠ [] from by decide),
    show goParseDate (gs ("13-99-99")) = none from by decide]

/-! ## Claim C8: failed decodes leave the receiver unchanged -/

/-- Claim C8. For every type, whenever `Scan` or `UnmarshalJSON` returns an
error, the receiver's observable state (stored value and present flag) is
returned exactly as it was before the call. -/
theorem c8_error_preserves_state :
    (∀ (r : types.String) (v : DriverValue) (e : GoErr),
      (types.String.Scan r v).2 = some e → (types.String.Scan r v).1 = r) ∧
    (∀ (r : types.Date) (v : DriverValue) (e : GoErr),
      (types.Date.Scan r v).2 = some e → (types.Date.Scan r v).1 = r) ∧
    (∀ (r : types.Time) (v : DriverValue) (e : GoErr),
      (types.Time.Scan r v).2 = some e → (types.Time.Scan r v).1 = r) ∧
    (∀ (r : types.Timestamp) (v : DriverValue) (e : GoErr),
      (types.Timestamp.Scan r v).2 = some e → (types.Timestamp.Scan r v).1 = r) ∧
    (∀ (r : types.String) (data : GoStr) (e : GoErr),
      (types.String.UnmarshalJSON r data).2 = some e →
      (types.String.UnmarshalJSON r data).1 = r) ∧
    (∀ (r : types.Date) (data : GoStr) (e : GoErr),
      (types.Date.UnmarshalJSON r data).2 = some e →
      (types.Date.UnmarshalJSON r data).1 = r) ∧
    (∀ (r : types.Time) (data : GoStr) (e : GoErr),
      (types.Time.UnmarshalJSON r data).2 = some e →
      (types.Time.UnmarshalJSON r data).1 = r) ∧
    (∀ (r : types.Timestamp) (data : GoStr) (e : GoErr),
      (types.Timestamp.UnmarshalJSON r data).2 = some e →
      (types.Timestamp.UnmarshalJSON r data).1 = r) :=
  ⟨stringScan_err, dateScan_err, timeScan_err, tsScan_err,
   stringUnmarshal_err, dateUnmarshal_err, timeUnmarshal_err, tsUnmarshal_err⟩

/-- Witness for C8 on failing decodes for each type and operation. -/
theorem c8_error_preserves_state_witness :
    (types.String.Scan ⟨gs ("a"), true⟩ .float64).1 = ⟨gs ("a"), true⟩ ∧
    (types.Date.Scan ⟨⟨5, 0, 0⟩, true⟩ (.str (gs ("13-99-99")))).1 = ⟨⟨5, 0, 0⟩, true⟩ ∧
    (types.Time.Scan ⟨⟨5, 0, 0⟩, true⟩ (.str (gs ("xx:yy")))).1 = ⟨⟨5, 0, 0⟩, true⟩ ∧
    (types.Timestamp.Scan ⟨⟨5, 0, 0⟩, true⟩ (.str (gs ("nope")))).1 = ⟨⟨5, 0, 0⟩, true⟩ ∧
    (types.String.UnmarshalJSON ⟨gs ("a"), true⟩ (gs ("12"))).1 = ⟨gs ("a"), true⟩ ∧
    (types.Date.UnmarshalJSON ⟨⟨5, 0, 0⟩, true⟩ (gs ("xx"))).1 = ⟨⟨5, 0, 0⟩, true⟩ ∧
    (types.Time.UnmarshalJSON ⟨⟨5, 0, 0⟩, true⟩ (gs ("xx"))).1 = ⟨⟨5, 0, 0⟩, true⟩ ∧
    (types.Timestamp.UnmarshalJSON ⟨⟨5, 0, 0⟩, true⟩ (gs ("xx"))).1 = ⟨⟨5, 0, 0⟩, true⟩ :=
  ⟨c8_error_preserves_state.1 ⟨gs ("a"), true⟩ .float64
     (.unsupportedType ("String") ("float64")) rfl,
   c8_error_preserves_state.2.1 ⟨⟨5, 0, 0⟩, true⟩ (.str (gs ("13-99-99")))
     (.invalidFormat ("Date") ("YYYY-MM-DD")) rfl,
   c8_error_preserves_state.2.2.1 ⟨⟨5, 0, 0⟩, true⟩ (.str (gs ("xx:yy")))
     (.invalidFormat ("Time") ("HH:MM")) rfl,
   c8_error_preserves_state.2.2.2.1 ⟨⟨5, 0, 0⟩, true⟩ (.str (gs ("nope")))
     (.invalidFormat ("Timestamp") ("RFC3339")) rfl,
   c8_error_preserves_state.2.2.2.2.1 ⟨gs ("a"), true⟩ (gs ("12"))
     (.malformedDocument ("String")) rfl,
   c8_error_preserves_state.2.2.2.2.2.1 ⟨⟨5, 0, 0⟩, true⟩ (gs ("xx"))
     (.invalidFormat ("Date") ("YYYY-MM-DD")) rfl,
   c8_error_preserves_state.2.2.2.2.2.2.1 ⟨⟨5, 0, 0⟩, true⟩ (gs ("xx"))
     (.invalidFormat ("Time") ("HH:MM")) rfl,
   c8_error_preserves_state.2.2.2.2.2.2.2 ⟨⟨5, 0, 0⟩, true⟩ (gs ("xx"))
     (.invalidFormat ("Timestamp") ("RFC3339")) rfl⟩

/-! ## Claim C9: IsZero versus presence -/

/-- Claim C9 (amended). For `Date` and `Time`, `IsZero` is true exactly when
the instance is not present OR the stored instant is the zero time
0001-01-01T00:00:00 UTC. The second disjunct is reachable for present
instances produced by the decode operations (see the counterexample), so
`IsZero` does not coincide with "not present". -/
theorem c9_iszero :
    (∀ d : types.Date, d.IsZero = true ↔
      (d.Valid = false ∨ (d.Time.sec = 0 ∧ d.Time.nsec = 0))) ∧
    (∀ t : types.Time, t.IsZero = true ↔
      (t.Valid = false ∨ (t.Time.sec = 0 ∧ t.Time.nsec = 0))) := by
  constructor
  · rintro ⟨tm, b⟩
    show (!b || tm.isZero) = true ↔ _
    cases b <;> simp [GoTime.isZero]
  · rintro ⟨tm, b⟩
    show (!b || tm.isZero) = true ↔ _
    cases b <;> simp [GoTime.isZero]

/-- Counterexample to C9 as stated: scanning the text `"00:00"` produces a
present `Time` (nil error) whose `IsZero` is nevertheless true. -/
theorem c9_iszero_counterexample :
    ((types.Time.Scan ⟨⟨5, 0, 0⟩, false⟩ (.str (gs ("00:00")))).1).Valid = true ∧
    ((types.Time.Scan ⟨⟨5, 0, 0⟩, false⟩ (.str (gs ("00:00")))).1).IsZero = true ∧
    (types.Time.Scan ⟨⟨5, 0, 0⟩, false⟩ (.str (gs ("00:00")))).2 = none := by
  decide

/-! ## Claim C10: UnmarshalJSON performs no JSON validation -/

/-- Claim C10. For `Date`, `Time` and `Timestamp`, `UnmarshalJSON` does no
JSON-syntax validation: for any payload other than the exact tokens `null` and
`""`, it removes at most one layer of surrounding double quotes (only when the
payload is at least two bytes long and both the first and the last byte are
`"`), and hands the result verbatim to the type's text parser. Consequently the
unquoted payload `2024-03-05` is accepted by `Date`, while non-string JSON
payloads such as `123` or an object are rejected as `InvalidFormat` by the text
parser, never as a malformed-document error. -/
theorem c10_unmarshal_no_validation :
    (∀ (d : types.Date) (data : GoStr), data ≠ gs ("null") → data ≠ ['"', '"'] →
      types.Date.UnmarshalJSON d data = types.Date.parseDateString d (stripQuotes data)) ∧
    (∀ (t : types.Time) (data : GoStr), data ≠ gs ("null") → data ≠ ['"', '"'] →
      types.Time.UnmarshalJSON t data = types.Time.parseTimeString t (stripQuotes data)) ∧
    (∀ (ts : types.Timestamp) (data : GoStr), data ≠ gs ("null") → data ≠ ['"', '"'] →
      types.Timestamp.UnmarshalJSON ts data =
        types.Timestamp.parseTimestampString ts (stripQuotes data)) ∧
    (∀ d : types.Date, types.Date.UnmarshalJSON d (gs ("2024-03-05")) =
      (⟨⟨63845193600, 0, 0⟩, true⟩, none)) ∧
    (∀ d : types.Date, types.Date.UnmarshalJSON d (gs ("123")) =
      (d, some (.invalidFormat ("Date") ("YYYY-MM-DD")))) ∧
    (∀ t : types.Time, types.Time.UnmarshalJSON t ['\x7b', '\x7d'] =
      (t, some (.invalidFormat ("Time") ("HH:MM")))) := by
  refine ⟨?_, ?_, ?_, ?_, ?_, ?_⟩
  · intro d data h1 h2
    unfold types.Date.UnmarshalJSON
    rw [if_neg (by push_neg; exact ⟨h1, h2⟩)]
    show types.Date.parseDateString d (stripQuotes data) = _
    rfl
  · intro t data h1 h2
    unfold types.Time.UnmarshalJSON
    rw [if_neg (by push_neg; exact ⟨h1, h2⟩)]
    show types.Time.parseTimeString t (stripQuotes data) = _
    rfl
  · intro ts data h1 h2
    unfold types.Timestamp.UnmarshalJSON
    rw [if_neg (by push_neg; exact ⟨h1, h2⟩)]
    show types.Timestamp.parseTimestampString ts (stripQuotes data) = _
    rfl
  · intro d
    unfold types.Date.UnmarshalJSON
    rw [if_neg (by decide)]
    dsimp only
    rw [if_neg (by decide)]
    unfold types.Date.parseDateString
    rw [if_neg (show gs ("2024-03-05") ≠ [] from by decide),
      show goParseDate (gs ("2024-03-05")) = some (2024, 3, 5) from by decide]
    show ((⟨⟨daysFromCivil 2024 3 5 * 86400, 0, 0⟩, true⟩ : types.Date),
      (none : Option GoErr)) = _
    rw [show daysFromCivil 2024 3 5 * 86400 = (63845193600 : Int) from by decide]
  · intro d
    unfold types.Date.UnmarshalJSON
    rw [if_neg (by decide)]
    dsimp only
    rw [if_neg (by decide)]
    unfold types.Date.parseDateString
    rw [if_neg (show gs ("123") ≠ [] from by decide),
      show goParseDate (gs ("123")) = none from by decide]
  · intro t
    unfold types.Time.UnmarshalJSON
    rw [if_neg (by decide)]
    dsimp only
    rw [if_neg (by decide)]
    unfold types.Time.parseTimeString
    rw [if_neg (show (['\x7b', '\x7d'] : GoStr) ≠ [] from by decide)]
    dsimp only
    rw [if_neg (show ¬5 < (['\x7b', '\x7d'] : GoStr).length from by decide),
      show goParseHM ['\x7b', '\x7d'] = none from rfl]

/-- Witness for C10's verbatim-delegation conjuncts at concrete payloads. -/
theorem c10_unmarshal_no_validation_witness :
    types.Date.UnmarshalJSON ⟨zeroTime, false⟩ (gs ("2024-03-05")) =
      types.Date.parseDateString ⟨zeroTime, false⟩ (stripQuotes (gs ("2024-03-05"))) ∧
    types.Time.UnmarshalJSON ⟨zeroTime, false⟩ ('"' :: gs ("09:15") ++ ['"']) =
      types.Time.parseTimeString ⟨zeroTime, false⟩
        (stripQuotes ('"' :: gs ("09:15") ++ ['"'])) ∧
    types.Timestamp.UnmarshalJSON ⟨zeroTime, false⟩ (gs ("2024-03-05T09:15:30Z")) =
      types.Timestamp.parseTimestampString ⟨zeroTime, false⟩
        (stripQuotes (gs ("2024-03-05T09:15:30Z"))) :=
  ⟨c10_unmarshal_no_validation.1 ⟨zeroTime, false⟩ (gs ("2024-03-05"))
     (by decide) (by decide),
   c10_unmarshal_no_validation.2.1 ⟨zeroTime, false⟩ ('"' :: gs ("09:15") ++ ['"'])
     (by decide) (by decide),
   c10_unmarshal_no_validation.2.2.1 ⟨zeroTime, false⟩ (gs ("2024-03-05T09:15:30Z"))
     (by decide) (by decide)⟩
